import Mathlib

/-!
Verification development for the OpDesk AMI call-state engine
(`backend/ami.py`).  The Python module is shallowly embedded here:

* strings are modelled as `List Char` (`Str`), with explicit ASCII helpers
  mirroring `str.isdigit`, `str.strip`, `str.lower`, `str.upper` and
  `str.startswith`;
* the monitor's mutable dictionaries (`ch2ext`, `active_calls`,
  `linkedid2channels`, ...) are association lists with Python-dict update
  semantics (replace in place, append new keys at the end);
* `datetime.now()` is an abstract tick `now : Nat` supplied to each step;
* each `_ev_*` handler of `AMIExtensionsMonitor` becomes a pure function
  on the state record `St`; CRM hand-offs (the `create_task(_send_crm_data ...)`
  scheduling decisions in `_ev_Hangup`) are returned as an output list;
* `_send_crm_data` itself (the payload composition coroutine) is embedded
  as a pure function returning `Option Payload`;
* the `KeyError` raised by `self.linkedid2channels[linkedid].discard(ch)`
  when the resolved linkedid is untracked aborts the handler; this is
  modelled by returning the partially mutated state at that point
  (the surrounding reader loop in the source stops on the exception,
  performing no further mutation for that event).

The monitor is modelled with a CRM connector configured (`crm_connector`
truthy), which is the deployment the CRM claims are about; logging,
`monitored`-set gating of log lines, and the missed-call notification sink
have no effect on correlator state and are omitted.
-/

set_option maxRecDepth 4000
set_option maxHeartbeats 2000000

namespace OpDesk

/-- Strings of the embedded program: lists of characters. -/
abbrev Str := List Char

/-- Convert a Lean string literal to the embedded string type. -/
def s2l (s : String) : Str := s.data

/-- ASCII digit test, as Python `str.isdigit` behaves on ASCII text. -/
def isDig (c : Char) : Bool := 48 ≤ c.toNat && c.toNat ≤ 57

/-- Whitespace test matching Python `str.strip`'s default set. -/
def isSpc (c : Char) : Bool := c.toNat = 32 || (9 ≤ c.toNat && c.toNat ≤ 13)

/-- Lower-case one ASCII character, as Python `str.lower` does. -/
def toLow (c : Char) : Char :=
  if 65 ≤ c.toNat && c.toNat ≤ 90 then Char.ofNat (c.toNat + 32) else c

/-- Upper-case one ASCII character, as Python `str.upper` does. -/
def toUpp (c : Char) : Char :=
  if 97 ≤ c.toNat && c.toNat ≤ 122 then Char.ofNat (c.toNat - 32) else c

/-- Python `v.isdigit()`: non-empty and all digits. -/
def isDigits (v : Str) : Bool := !v.isEmpty && v.all isDig

/-- Python `v.lower()`. -/
def lowerS (v : Str) : Str := v.map toLow

/-- Python `v.upper()`. -/
def upperS (v : Str) : Str := v.map toUpp

/-- Python `v.startswith(p)`. -/
def startsW (p v : Str) : Bool :=
  match p, v with
  | [], _ => true
  | _ :: _, [] => false
  | a :: p, b :: v => a = b && startsW p v

/-- Drop trailing characters satisfying `f` (helper for `strip`). -/
def dropTrail (f : Char → Bool) (v : Str) : Str :=
  (v.reverse.dropWhile f).reverse

/-- Python `v.strip()`: remove leading and trailing whitespace. -/
def strip (v : Str) : Str := dropTrail isSpc (v.dropWhile isSpc)

/-- Greedy run of digits at the front of a string (helper for the
channel-name regex). -/
def digitRun (v : Str) : Str × Str :=
  match v with
  | [] => ([], [])
  | c :: rest =>
    if isDig c then
      let (d, r) := digitRun rest
      (c :: d, r)
    else ([], c :: rest)

/-- Search for the regex `/(\d+)-` in a string: the first `/` followed by a
non-empty digit run followed by `-`; returns the digit group.  This embeds
`_RE_EXT_FROM_CHANNEL.search`. -/
def extSearch : Str → Option Str
  | [] => none
  | c :: rest =>
    if c = '/' then
      match digitRun rest with
      | (d, r) =>
        match d, r with
        | _ :: _, '-' :: _ => some d
        | _, _ => extSearch rest
    else extSearch rest

/-- Embeds `_ext_from_channel`: extension digits between `/` and `-` of a
channel name, or `none`. -/
def _ext_from_channel (channel : Str) : Option Str :=
  if channel.isEmpty then none else extSearch channel

/-- The dialplan context keyword set `DIALPLAN_CTX`. -/
def DIALPLAN_CTX : List Str :=
  [s2l "s", s2l "h", s2l "i", s2l "t", s2l "o", s2l "a", s2l "e",
   s2l "start", s2l "hangup", s2l "invalid", s2l "timeout"]

/-- The consumed `VarSet` variable names `DIALED_VARS`. -/
def DIALED_VARS : List Str :=
  [s2l "EXTEN", s2l "DIALEDPEERNUMBER", s2l "DIALEDNUMBER", s2l "OUTNUM",
   s2l "DIAL_NUMBER", s2l "CALLEDNUM", s2l "FROM_DID"]

/-- Embeds `_meaningful`: does the value look like a real phone/extension
number or feature code. -/
def _meaningful (value : Str) : Bool :=
  if value.isEmpty then false
  else
    let v := strip value
    if startsW (s2l "*") v && decide (2 ≤ v.length) && isDigits (v.drop 1) then
      true
    else if !isDigits v then false
    else if decide (lowerS v ∈ DIALPLAN_CTX) || decide (v.length ≤ 2) then false
    else if decide (v.length = 4) && startsW (s2l "5") v then false
    else true

/-- The meaningful-number predicate exactly as the specification words it
(claim C4): non-empty, and either `*` followed by at least one character
that is all digits, or all digits, not a dialplan keyword, longer than two
characters and not a 4-character string beginning with `5`.  No whitespace
stripping is mentioned. -/
def claimMeaningful (v : Str) : Bool :=
  !v.isEmpty &&
    ((startsW (s2l "*") v && isDigits (v.drop 1)) ||
     (isDigits v && !(decide (v ∈ DIALPLAN_CTX)) && decide (2 < v.length) &&
      !(decide (v.length = 4) && startsW (s2l "5") v)))

/-- Embeds `map_cause_to_status`: hangup cause code and dial status to CRM
call status.  `dial` is the empty string when the Python argument is falsy. -/
def map_cause_to_status (cause : Str) (dial : Str) : Str :=
  let status :=
    if cause = s2l "16" then s2l "completed"
    else if cause = s2l "17" then s2l "busy"
    else if cause = s2l "18" then s2l "noanswer"
    else if cause = s2l "19" then s2l "noanswer"
    else if cause = s2l "20" then s2l "switched_off"
    else if cause = s2l "28" then s2l "invalid_number"
    else if cause = s2l "34" then s2l "invalid_number"
    else if cause = s2l "21" then s2l "failed"
    else if cause = s2l "31" then s2l "failed"
    else if cause = s2l "127" then s2l "noanswer"
    else if cause = s2l "0" then s2l "busy"
    else s2l "failed"
  if !dial.isEmpty then
    let d := upperS dial
    if d = s2l "CANCEL" then s2l "noanswer"
    else if d = s2l "BUSY" then s2l "busy"
    else if d = s2l "CONGESTION" then s2l "failed"
    else if d = s2l "CHANUNAVAIL" then s2l "failed"
    else if d = s2l "NOANSWER" then s2l "noanswer"
    else status
  else status

/-- Embeds `_should_notify_missed_or_busy` (answered calls and normally
completed calls create no notification row). -/
def _should_notify_missed_or_busy (cause : Str) (answered : Bool) : Bool :=
  if answered then false
  else
    let status := map_cause_to_status cause []
    decide (status ∈ [s2l "busy", s2l "noanswer", s2l "switched_off",
                      s2l "failed", s2l "invalid_number"])

/-! ## Association lists with Python-dict semantics

Python dicts preserve insertion order; assignment to an existing key
replaces the value in place, assignment to a new key appends, and `del` /
`pop` removes the pair.  The helpers below realize exactly that on
`List (Str × α)`. -/

/-- Python `d.get(k)`. -/
def alookup {α : Type} (l : List (Str × α)) (k : Str) : Option α :=
  match l with
  | [] => none
  | (k', v) :: rest => if k' = k then some v else alookup rest k

/-- Python `d[k] = v`: replace in place, or append a new pair. -/
def aset {α : Type} (l : List (Str × α)) (k : Str) (v : α) : List (Str × α) :=
  match l with
  | [] => [(k, v)]
  | (k', v') :: rest =>
    if k' = k then (k, v) :: rest else (k', v') :: aset rest k v

/-- Python `d.pop(k, None)` / `del d[k]` (removes every pair with key `k`;
well-formed states never hold duplicate keys). -/
def aerase {α : Type} (l : List (Str × α)) (k : Str) : List (Str × α) :=
  match l with
  | [] => []
  | (k', v) :: rest => if k' = k then aerase rest k else (k', v) :: aerase rest k

/-- Membership of a key, Python `k in d`. -/
def amem {α : Type} (l : List (Str × α)) (k : Str) : Bool :=
  (alookup l k).isSome

/-- Python `set.add`: insert if absent (sets are modelled as ordered lists). -/
def sadd (l : List Str) (k : Str) : List Str :=
  if k ∈ l then l else l ++ [k]

/-- Python `set.discard`: remove all occurrences. -/
def sdel (l : List Str) (k : Str) : List Str :=
  match l with
  | [] => []
  | x :: rest => if x = k then sdel rest k else x :: sdel rest k

/-! ## Data model

`active_calls` values in the source are loose string-keyed dicts whose
keys come from a fixed repertoire; `CallInfo` gives each possible key a
field.  `none` models an absent key (Python `'k' in info` is `≠ none`);
`answer_time = some none` models the key present with value `None`.
Event fields are `Option Str`: `none` models an absent AMI header, which
some handlers distinguish from an empty value. -/

/-- One `active_calls` record, with every key the handlers ever use. -/
structure CallInfo where
  channel : Option Str := none
  callerid : Option Str := none
  exten : Option Str := none
  context : Option Str := none
  state : Option Str := none
  caller : Option Str := none
  destination : Option Str := none
  original_destination : Option Str := none
  destchannel : Option Str := none
  dialstatus : Option Str := none
  queue : Option Str := none
  queue_waiting : Option Bool := none
  queue_answered : Option Bool := none
  queue_caller : Option Str := none
  queue_caller_channel : Option Str := none
  answered_agent : Option Str := none
  linkedid : Option Str := none
  dest_state : Option Str := none
  start_time : Option Nat := none
  answer_time : Option (Option Nat) := none
deriving DecidableEq

/-- Python `info.get(k, '')` for an optional string field. -/
def g (o : Option Str) : Str := o.getD []

/-- Python `info.get(k, False)` for an optional boolean field. -/
def gb (o : Option Bool) : Bool := o.getD false

/-- Python truthy-or chain `a or b`: first non-empty string. -/
def orS (a b : Str) : Str := if a.isEmpty then b else a

/-- A queue member view stored inside `queues[q]['members']`. -/
structure QMemberView where
  status : Str := []
  paused : Bool := false
  membername : Str := []
  dynamic : Bool := false
deriving DecidableEq

/-- One `queues` record. -/
structure QueueInfo where
  members : List (Str × QMemberView) := []
  calls_waiting : Nat := 0
  available : Nat := 0
  logged_in : Nat := 0
  hold_time : Str := []
  talk_time : Str := []
deriving DecidableEq

/-- One `queue_members` record (keyed by `queue:interface`). -/
structure QMember where
  queue : Str := []
  interface : Str := []
  membername : Str := []
  status : Str := []
  paused : Bool := false
  dynamic : Bool := false
  pause_reason : Option Str := none
  last_update : Nat := 0
deriving DecidableEq

/-- One `queue_entries` record (keyed by the caller's uniqueid). -/
structure QEntry where
  queue : Str := []
  callerid : Str := []
  position : Nat := 0
  entry_time : Nat := 0
deriving DecidableEq

/-- The payload stored by `_ev_ExtensionStatus` into `self.extensions`
(the parsed event, of which the handlers only ever reuse these fields). -/
structure ExtSt where
  exten : Str := []
  status : Str := []
deriving DecidableEq

/-- The correlator state: the mutable dictionaries of
`AMIExtensionsMonitor`.  `monitored` only gates log lines and is omitted;
`crm_connector` is modelled as configured. -/
structure St where
  extensions : List (Str × ExtSt) := []
  active_calls : List (Str × CallInfo) := []
  ch2ext : List (Str × Str) := []
  ch_callerid : List (Str × Str) := []
  destch2ext : List (Str × Str) := []
  queues : List (Str × QueueInfo) := []
  queue_members : List (Str × QMember) := []
  queue_entries : List (Str × QEntry) := []
  dynamic_members : List Str := []
  ch2uniqueid : List (Str × Str) := []
  ch2linkedid : List (Str × Str) := []
  linkedid2channels : List (Str × List Str) := []
  linkedid_crm_sent : List Str := []
deriving DecidableEq

/-- The freshly constructed monitor: every dictionary empty. -/
def initSt : St := {}

/-- A CRM hand-off scheduled by `_ev_Hangup`
(`loop.create_task(self._send_crm_data(...))`): the extension it was
issued for and the `linkedid` / `uniqueid` pair governing the
`linkedid_crm_sent` duplicate check. -/
structure Handoff where
  ext : Str
  linkedid : Str
  uniqueid : Str
deriving DecidableEq

/-! ## Shared state helpers -/

/-- Number of queue entries whose `queue` field is `q`
(`sum(1 for e in self.queue_entries.values() if e.get('queue') == queue)`). -/
def countQ (entries : List (Str × QEntry)) (q : Str) : Nat :=
  (entries.filter (fun p => p.2.queue = q)).length

/-- Recompute `queues[q].calls_waiting` from the entries, when `q` is a
known queue (the recurring recount idiom of the source). -/
def recountQ (queues : List (Str × QueueInfo)) (entries : List (Str × QEntry))
    (q : Str) : List (Str × QueueInfo) :=
  match alookup queues q with
  | some qi => aset queues q {qi with calls_waiting := countQ entries q}
  | none => queues

/-- Add a channel to a linkedid group, creating the group when absent
(`self.linkedid2channels.setdefault`-style idiom). -/
def groupAdd (m : List (Str × List Str)) (k ch : Str) : List (Str × List Str) :=
  aset m k (sadd ((alookup m k).getD []) ch)

/-- Embeds `_resolve_ext`: channel to extension, caching new mappings. -/
def _resolve_ext (s : St) (channel : Str) : Str × St :=
  let ext := g (alookup s.ch2ext channel)
  if ext.isEmpty then
    match _ext_from_channel channel with
    | some d => (d, {s with ch2ext := aset s.ch2ext channel d})
    | none => ([], s)
  else (ext, s)

/-- Embeds `_cross_ref`: let `target` know it has an incoming call from
`caller`. -/
def _cross_ref (s : St) (caller target : Str) : St :=
  if target = caller || !_meaningful target then s
  else if !isDigits target || decide (5 < target.length) then s
  else
    let t := (alookup s.active_calls target).getD {}
    let t := {t with caller := some caller}
    let t := if (g t.original_destination).isEmpty then
               {t with original_destination := some caller} else t
    {s with active_calls := aset s.active_calls target t}

/-- Parse a known-digit string to a natural (`int(v)` after `isdigit`). -/
def parseNat (v : Str) : Nat :=
  v.foldl (fun acc c => acc * 10 + (c.toNat - 48)) 0

/-- Last `/`-separated segment (`interface.split('/')[-1]`). -/
def lastSeg (v : Str) : Str :=
  (v.reverse.takeWhile (fun c => c ≠ '/')).reverse

/-- Embeds `_queue_member_status`. -/
def _queue_member_status (code : Str) : Str :=
  if code = s2l "0" then s2l "Unknown"
  else if code = s2l "1" then s2l "Not in use"
  else if code = s2l "2" then s2l "In use"
  else if code = s2l "3" then s2l "Busy"
  else if code = s2l "4" then s2l "Invalid"
  else if code = s2l "5" then s2l "Unavailable"
  else if code = s2l "6" then s2l "Ringing"
  else if code = s2l "7" then s2l "Ring+In use"
  else if code = s2l "8" then s2l "On Hold"
  else s2l "Unknown (" ++ code ++ s2l ")"

/-- The `linkedid_crm_sent` key `f"{linkedid}:{uniqueid}"`. -/
def crmKey (linkedid uniqueid : Str) : Str := linkedid ++ ':' :: uniqueid

/-- The trunk/system-channel test of `_ev_Hangup`
(`ch.startswith('PJSIP/asterisk-') or ch.startswith('SIP/asterisk-')`). -/
def isTrunkChannel (ch : Str) : Bool :=
  startsW (s2l "PJSIP/asterisk-") ch || startsW (s2l "SIP/asterisk-") ch

/-! ## Event handlers -/

/-- Embeds `_ev_ExtensionStatus`: cache the raw event for the extension;
never touch `active_calls` (Idle may arrive before Hangup). -/
def _ev_ExtensionStatus (s : St) (exten status : Option Str) : St :=
  let ext := g exten
  if ext.isEmpty then s
  else
    let payload : ExtSt := {exten := ext, status := status.getD (s2l "-1")}
    {s with extensions := aset s.extensions ext payload}

/-- Embeds `_ev_DeviceStateChange`. -/
def _ev_DeviceStateChange (s : St) (device state : Option Str) : St :=
  match _ext_from_channel (g device) with
  | none => s
  | some ext =>
    match alookup s.active_calls ext with
    | none => s
    | some info =>
      {s with active_calls := aset s.active_calls ext {info with state := some (g state)}}

/-- Embeds `_ev_NewCallerid`. -/
def _ev_NewCallerid (s : St) (channel callerIDNum exten0 : Option Str) : St :=
  let ch := g channel
  let callerid := g callerIDNum
  let exten := g exten0
  let (ext, s) := _resolve_ext s ch
  let s := if _meaningful callerid then
      {s with ch_callerid := aset s.ch_callerid ch callerid} else s
  if ext.isEmpty then s
  else
    let info := (alookup s.active_calls ext).getD {}
    let info := if _meaningful callerid then {info with callerid := some callerid} else info
    let info :=
      if _meaningful exten then
        let info := {info with exten := some exten}
        if info.original_destination = none then
          {info with original_destination := some exten}
        else info
      else info
    {s with active_calls := aset s.active_calls ext info}

/-- Embeds `_ev_Dial`. -/
def _ev_Dial (s : St) (channel destination dialStatus dialString dialstring
    destExten : Option Str) : St :=
  let ch := g channel
  let (ext, s) := _resolve_ext s ch
  if ext.isEmpty then s
  else
    let info := (alookup s.active_calls ext).getD {}
    let info := {info with destination := some (g destination),
                           dialstatus := some (g dialStatus)}
    let dialed := orS (match dialString with
                      | some v => v
                      | none => g dialstring) (g destExten)
    let info :=
      if _meaningful dialed then
        let info := if info.original_destination = none then
            {info with original_destination := some dialed} else info
        {info with exten := some dialed}
      else info
    {s with active_calls := aset s.active_calls ext info}

/-- Embeds `_ev_VarSet` (only the `DIALED_VARS` variables are consumed). -/
def _ev_VarSet (s : St) (channel variable0 value0 : Option Str) : St :=
  let var := g variable0
  let val := g value0
  if decide (upperS var ∈ DIALED_VARS) then
    let (ext, s) := _resolve_ext s (g channel)
    if !ext.isEmpty && !val.isEmpty && val ≠ ext && _meaningful val then
      let info := (alookup s.active_calls ext).getD {}
      let info := if (g info.original_destination).isEmpty then
          {info with original_destination := some val, exten := some val}
        else info
      {s with active_calls := aset s.active_calls ext info}
    else s
  else s

/-- Embeds `_ev_Newstate` (log-only branches omitted). -/
def _ev_Newstate (s : St) (now : Nat) (channel stateDesc chanState : Option Str) : St :=
  let ch := g channel
  let (ext, s) := _resolve_ext s ch
  let state := orS (g stateDesc) (g chanState)
  let s :=
    if !ext.isEmpty then
      let info := (alookup s.active_calls ext).getD {}
      let info := {info with state := some state}
      let info := if state = s2l "Up" && info.answer_time = some none then
          {info with answer_time := some (some now)} else info
      let info := if info.start_time = none then
          {info with start_time := some now, answer_time := some none} else info
      {s with active_calls := aset s.active_calls ext info}
    else s
  let caller_ext := g (alookup s.destch2ext ch)
  if !caller_ext.isEmpty then
    match alookup s.active_calls caller_ext with
    | some caller_info =>
      let ci := {caller_info with dest_state := some state}
      {s with active_calls := aset s.active_calls caller_ext ci}
    | none => s
  else s

/-- Channel/uniqueid/linkedid tracking at the top of `_ev_Newchannel`. -/
def newchannelTrack (s : St) (ch uniqueid linkedid : Str) : St :=
  let s := if !uniqueid.isEmpty then
      {s with ch2uniqueid := aset s.ch2uniqueid ch uniqueid} else s
  if !linkedid.isEmpty then
    {s with ch2linkedid := aset s.ch2linkedid ch linkedid,
            linkedid2channels := groupAdd s.linkedid2channels linkedid ch}
  else s

/-- The `active_calls` record mutations of `_ev_Newchannel` for the owning
extension. -/
def newchannelInfo (info : CallInfo) (now : Nat) (ch callerid exten ext ctx : Str) :
    CallInfo :=
  let info := {info with channel := some ch, callerid := some callerid}
  let info :=
    if _meaningful exten then {info with exten := some exten}
    else if info.exten = none then {info with exten := some []}
    else info
  let info := {info with context := some ctx, state := some (s2l "New")}
  let info := if info.start_time = none then
      {info with start_time := some now, answer_time := some none} else info
  if !callerid.isEmpty && callerid ≠ ext && isDigits callerid then
    {info with caller := some callerid}
  else info

/-- The internal-caller cross update of `_ev_Newchannel`. -/
def newchannelCallerUpd (s : St) (callerid ext : Str) : St :=
  match alookup s.active_calls callerid with
  | some ci =>
    if ci.original_destination = none then
      let ci := {ci with original_destination := some ext, exten := some ext}
      {s with active_calls := aset s.active_calls callerid ci}
    else s
  | none => s

/-- The trailing `original_destination` block of `_ev_Newchannel`. -/
def newchannelOrigDest (s : St) (info : CallInfo) (ext exten conn : Str) : St :=
  if info.original_destination = none then
    if _meaningful exten && exten ≠ ext then
      let info := {info with original_destination := some exten}
      let s := {s with active_calls := aset s.active_calls ext info}
      _cross_ref s ext exten
    else
      if _meaningful conn then
        let info := {info with original_destination := some conn}
        {s with active_calls := aset s.active_calls ext info}
      else s
  else s

/-- Embeds `_ev_Newchannel`. -/
def _ev_Newchannel (s : St) (now : Nat) (channel callerIDNum callerIDName
    exten0 uniqueid0 linkedid0 context0 connectedLineNum : Option Str) : St :=
  let ch := g channel
  let callerid := orS (g callerIDNum) (g callerIDName)
  let exten := g exten0
  let uniqueid := g uniqueid0
  let linkedid := orS (g linkedid0) uniqueid
  let s := newchannelTrack s ch uniqueid linkedid
  let ext := match _ext_from_channel ch with
    | some d => d
    | none => if _meaningful exten then exten else []
  if ext.isEmpty || decide (lowerS ext ∈ DIALPLAN_CTX) then
    let v := if _meaningful callerid then callerid else []
    {s with ch2ext := aset s.ch2ext ch v}
  else
    let s := {s with ch2ext := aset s.ch2ext ch ext}
    let info := newchannelInfo ((alookup s.active_calls ext).getD {}) now
        ch callerid exten ext (g context0)
    let s := {s with active_calls := aset s.active_calls ext info}
    let s :=
      if !callerid.isEmpty && callerid ≠ ext && isDigits callerid &&
         decide (callerid.length ≤ 5) then
        newchannelCallerUpd s callerid ext
      else s
    newchannelOrigDest s info ext exten (g connectedLineNum)

/-- Embeds `_ev_DialBegin`. -/
def dialBeginDest (s : St) (destch ext : Str) : St :=
  let dest_ext := if destch.isEmpty then none else _ext_from_channel destch
  match dest_ext with
  | some de =>
    if decide (de ∈ DIALPLAN_CTX) then s
    else
      let dest_info := (alookup s.active_calls de).getD {}
      let dest_info := {dest_info with channel := some destch}
      let dest_info := if dest_info.state = none then
          {dest_info with state := some (s2l "Ringing")} else dest_info
      let dest_info := {dest_info with caller := some ext}
      {s with active_calls := aset s.active_calls de dest_info,
              ch2ext := aset s.ch2ext destch de}
  | none => s

/-- The post-resolution body of `_ev_DialBegin`. -/
def dialBeginMain (s : St) (now : Nat) (ch ext destexten dialstring destch : Str) :
    St :=
  let info := (alookup s.active_calls ext).getD {}
  let info := {info with channel := some ch}
  let info := if info.state = none then {info with state := some (s2l "Dialing")} else info
  let info := {info with destchannel := some destch}
  let s := {s with ch2ext := aset s.ch2ext ch ext}
  let info := if info.start_time = none then
      {info with start_time := some now, answer_time := some none} else info
  let dialed : Option Str :=
    if _meaningful destexten then some destexten
    else if !dialstring.isEmpty then
      let candidate := strip ((dialstring.takeWhile (fun c => c ≠ '@')).takeWhile
        (fun c => c ≠ '/'))
      if _meaningful candidate then some candidate else none
    else none
  let info :=
    match dialed with
    | some d =>
      let info := {info with exten := some d}
      if info.original_destination = none then
        {info with original_destination := some d}
      else info
    | none => info
  let s := {s with active_calls := aset s.active_calls ext info}
  let s := match dialed with
    | some d => if d ≠ ext then _cross_ref s ext d else s
    | none => s
  let s := dialBeginDest s destch ext
  if !destch.isEmpty then {s with destch2ext := aset s.destch2ext destch ext}
  else s

def _ev_DialBegin (s : St) (now : Nat) (channel destExten dialString
    destChannel : Option Str) : St :=
  let ch := g channel
  let (ext, s) := _resolve_ext s ch
  if ext.isEmpty then s
  else dialBeginMain s now ch ext (g destExten) (g dialString) (g destChannel)

/-- Embeds `_ev_DialEnd` (dial-status priority: a new `ANSWER` always wins,
otherwise never overwrite an existing `ANSWER`). -/
def dialEndOwn (s : St) (ext destexten dialstatus newStat : Str) : St :=
  if !ext.isEmpty then
    match alookup s.active_calls ext with
    | some info =>
      let current := upperS (g info.dialstatus)
      let info := if newStat = s2l "ANSWER" || current ≠ s2l "ANSWER" then
          {info with dialstatus := some dialstatus} else info
      let info :=
        if _meaningful destexten then
          let info := if info.original_destination = none then
              {info with original_destination := some destexten} else info
          {info with exten := some destexten}
        else info
      {s with active_calls := aset s.active_calls ext info}
    | none => s
  else s

def dialEndDest (s : St) (ext destch destexten dialstatus newStat : Str) : St :=
  let dest_ext0 := if destch.isEmpty then none else _ext_from_channel destch
  let dest_ext :=
    match dest_ext0 with
    | some d => some d
    | none =>
      if _meaningful destexten && isDigits destexten && decide (destexten.length ≤ 5) then
        some destexten
      else none
  match dest_ext with
  | some de =>
    match alookup s.active_calls de with
    | some dest_info =>
      let (s, dest_info) :=
        if !destch.isEmpty then
          ({s with ch2ext := aset s.ch2ext destch de}, {dest_info with channel := some destch})
        else (s, dest_info)
      let dest_info := if dest_info.caller = none && !ext.isEmpty then
          {dest_info with caller := some ext} else dest_info
      let destCurrent := upperS (g dest_info.dialstatus)
      let dest_info := if newStat = s2l "ANSWER" || destCurrent ≠ s2l "ANSWER" then
          {dest_info with dialstatus := some dialstatus} else dest_info
      {s with active_calls := aset s.active_calls de dest_info}
    | none => s
  | none => s

/-- Embeds `_ev_DialEnd` (dial-status priority: a new `ANSWER` always wins,
otherwise never overwrite an existing `ANSWER`). -/
def _ev_DialEnd (s : St) (channel destExten destChannel dialStatus : Option Str) : St :=
  let ch := g channel
  let (ext, s) := _resolve_ext s ch
  let destexten := g destExten
  let destch := g destChannel
  let dialstatus := g dialStatus
  let newStat := upperS dialstatus
  let s := dialEndOwn s ext destexten dialstatus newStat
  dialEndDest s ext destch destexten dialstatus newStat

/-- Embeds `_cid` inside `_ev_Bridge`. -/
def bridgeCid (s : St) (ch ext : Str) : Str :=
  if !ext.isEmpty && amem s.active_calls ext then
    match (alookup s.active_calls ext).getD {} |>.callerid with
    | some v => v
    | none => g (alookup s.ch_callerid ch)
  else g (alookup s.ch_callerid ch)

/-- Channel-side linkedid move inside `_ev_Bridge`. -/
def bridgeMove (s : St) (ch bid : Str) : St :=
  if ch.isEmpty then s
  else
    match alookup s.ch2linkedid ch with
    | none => {s with ch2linkedid := aset s.ch2linkedid ch bid}
    | some old =>
      if old ≠ bid then
        let s :=
          match alookup s.linkedid2channels old with
          | some grp =>
            let grp1 := sdel grp ch
            if grp1.isEmpty then
              {s with linkedid2channels := aerase s.linkedid2channels old}
            else {s with linkedid2channels := aset s.linkedid2channels old grp1}
          | none => s
        {s with ch2linkedid := aset s.ch2linkedid ch bid}
      else s

/-- The linkedid-group merge step of `_ev_Bridge`. -/
def bridgeLink (s : St) (ch1 ch2 bid : Str) : St :=
  if !bid.isEmpty then
    let s := bridgeMove s ch1 bid
    let s := bridgeMove s ch2 bid
    let grp := (alookup s.linkedid2channels bid).getD []
    {s with linkedid2channels := aset s.linkedid2channels bid (sadd (sadd grp ch1) ch2)}
  else s

/-- The `active_calls.setdefault(ext, {})` touch of `_ev_Bridge`. -/
def bridgeTouch (s : St) (ext : Str) : St :=
  if !ext.isEmpty then
    {s with active_calls := aset s.active_calls ext
              ((alookup s.active_calls ext).getD {})}
  else s

/-- One side's destination/queue update of `_ev_Bridge` (`me` is the side
being updated, `other` the opposite leg). -/
def bridgeSide (s : St) (me other cidOther : Str) : St :=
  if !me.isEmpty then
    let info := (alookup s.active_calls me).getD {}
    let dst := if !cidOther.isEmpty && cidOther ≠ me then cidOther else other
    let info := {info with destination := some dst}
    let info :=
      if !other.isEmpty then
        match alookup s.active_calls other with
        | some info2 =>
          if info2.queue ≠ none && info.queue = none then
            {info with queue := info2.queue}
          else info
        | none => info
      else info
    {s with active_calls := aset s.active_calls me info}
  else s

/-- Embeds `_ev_Bridge`. -/
def _ev_Bridge (s : St) (channel1 channel2 linkedid0 : Option Str) : St :=
  let ch1 := g channel1
  let ch2 := g channel2
  let (ext1, s) := _resolve_ext s ch1
  let (ext2, s) := _resolve_ext s ch2
  let evL := g linkedid0
  let linkedid1 := orS evL (g (alookup s.ch2linkedid ch1))
  let linkedid2 := orS evL (g (alookup s.ch2linkedid ch2))
  let bid := orS evL (orS linkedid1 linkedid2)
  let s := bridgeLink s ch1 ch2 bid
  let cid1 := bridgeCid s ch1 ext1
  let cid2 := bridgeCid s ch2 ext2
  let s := bridgeTouch s ext1
  let s := bridgeTouch s ext2
  let s := bridgeSide s ext1 ext2 cid2
  bridgeSide s ext2 ext1 cid1

/-! ### `_ev_Hangup`, split into its phases -/

/-- Phase 1 of `_ev_Hangup`: resolve the uniqueid, pop its queue entry and
recount, and drop the channel's uniqueid mapping.  Returns the queue name
(`[]` for Python `None`). -/
def hangupQueueCleanup (s : St) (ch uniqueid : Str) : Str × St :=
  let (queueN, s) :=
    if !uniqueid.isEmpty then
      match alookup s.queue_entries uniqueid with
      | some ent =>
        let entries := aerase s.queue_entries uniqueid
        let queues := recountQ s.queues entries ent.queue
        (ent.queue, {s with queue_entries := entries, queues := queues})
      | none => ([], s)
    else ([], s)
  (queueN, {s with ch2uniqueid := aerase s.ch2uniqueid ch})

/-- Phase 2 of `_ev_Hangup`: final-hangup determination and linkedid-group
maintenance.  Returns `none` when the source raises `KeyError` at
`self.linkedid2channels[linkedid].discard(ch)` (resolved linkedid absent
from the tracking map), aborting the handler with the state mutated so far;
otherwise `some (is_final_hangup, state)`. -/
def hangupLinkedid (s : St) (ch linkedid : Str) : Option (Bool × St) :=
  if linkedid.isEmpty then some (false, s)
  else
    match alookup s.linkedid2channels linkedid with
    | none => none
    | some grp =>
      let active := grp.filter (fun c =>
        c ≠ ch && amem s.ch2ext c && !startsW (s2l "PJSIP/asterisk-") c)
      let isF := active.isEmpty
      let grp1 := sdel grp ch
      let s :=
        if grp1.isEmpty then
          {s with linkedid2channels := aerase s.linkedid2channels linkedid,
                  linkedid_crm_sent := s.linkedid_crm_sent.filter
                    (fun k => !startsW (linkedid ++ [':']) k)}
        else {s with linkedid2channels := aset s.linkedid2channels linkedid grp1}
      some (isF, {s with ch2linkedid := aerase s.ch2linkedid ch})

/-- The guarded hand-off idiom shared by the three CRM emission sites of
`_ev_Hangup`: consult `linkedid_crm_sent` under the `linkedid:uniqueid`
key (when both parts are known), mark, and schedule `_send_crm_data`. -/
def hangupEmit (crm : List Str) (who linkedid uniqueid : Str) :
    List Str × List Handoff :=
  if !linkedid.isEmpty && !uniqueid.isEmpty then
    let k := crmKey linkedid uniqueid
    if k ∈ crm then (crm, [])
    else (sadd crm k, [⟨who, linkedid, uniqueid⟩])
  else (crm, [⟨who, linkedid, uniqueid⟩])

/-- The caller-destination path of `_ev_Hangup` (the hung-up channel was
registered in `destch2ext`; covers outbound calls where the far leg hangs
up first). -/
def hangupCallerPath (s : St) (ch caller_ext ext linkedid uniqueid : Str)
    (isFinal : Bool) : St × List Handoff :=
  match alookup s.active_calls caller_ext with
  | none => (s, [])
  | some caller_info =>
    if caller_info.destchannel = some ch || caller_info.channel = some ch then
      let caller_info :=
        if isDigits caller_ext && decide (5 < caller_ext.length) then
          let caller_info := if (g caller_info.callerid).isEmpty then
              {caller_info with callerid := some caller_ext} else caller_info
          if (g caller_info.caller).isEmpty then
            {caller_info with caller := some caller_ext}
          else caller_info
        else caller_info
      let s := {s with active_calls := aset s.active_calls caller_ext caller_info}
      let actual_ext := if !ext.isEmpty && isDigits ext && decide (3 ≤ ext.length) &&
          decide (ext.length ≤ 5) then ext else caller_ext
      let (crm, hs) :=
        if isFinal then hangupEmit s.linkedid_crm_sent actual_ext linkedid uniqueid
        else (s.linkedid_crm_sent, [])
      let s := {s with linkedid_crm_sent := crm}
      let s :=
        if isFinal then {s with active_calls := aerase s.active_calls caller_ext}
        else
          let ci := {caller_info with destchannel := none}
          {s with active_calls := aset s.active_calls caller_ext ci}
      (s, hs)
    else (s, [])

/-- The extension path of `_ev_Hangup` (primary-channel match, destination
channel match, or channel mismatch). -/
def hangupExtPath (s : St) (ch ext linkedid uniqueid : Str) (isFinal : Bool) :
    St × List Handoff :=
  match alookup s.active_calls ext with
  | none => (s, [])
  | some ext_info =>
    if ext_info.channel = some ch then
      let (crm, hs) :=
        if isFinal then hangupEmit s.linkedid_crm_sent ext linkedid uniqueid
        else (s.linkedid_crm_sent, [])
      ({s with linkedid_crm_sent := crm,
               active_calls := aerase s.active_calls ext}, hs)
    else if ext_info.destchannel = some ch then
      let ci := {ext_info with destchannel := none}
      ({s with active_calls := aset s.active_calls ext ci}, [])
    else
      let (crm, hs) :=
        if isFinal then hangupEmit s.linkedid_crm_sent ext linkedid uniqueid
        else (s.linkedid_crm_sent, [])
      ({s with linkedid_crm_sent := crm}, hs)

/-- One step of the trailing `ch2ext` cleanup loop of `_ev_Hangup`. -/
def hangupDropChan (s : St) (cname : Str) : St :=
  let s := {s with ch2ext := aerase s.ch2ext cname,
                   ch_callerid := aerase s.ch_callerid cname}
  match alookup s.ch2uniqueid cname with
  | some u =>
    let s := {s with ch2uniqueid := aerase s.ch2uniqueid cname}
    if u.isEmpty then s
    else
      match alookup s.queue_entries u with
      | some ent =>
        let entries := aerase s.queue_entries u
        {s with queue_entries := entries, queues := recountQ s.queues entries ent.queue}
      | none => s
  | none => s

/-- The trailing cleanup loops of `_ev_Hangup` (same-extension channels,
callerid map, destination map, and the `active_calls` fallback sweep). -/
def hangupCleanup (s : St) (ch ext : Str) : St :=
  let s :=
    if !ext.isEmpty then
      let chans := (s.ch2ext.filter (fun p => p.2 = ext)).map (fun p => p.1)
      chans.foldl hangupDropChan s
    else s
  let s := {s with ch_callerid := aerase s.ch_callerid ch}
  let s :=
    if !ext.isEmpty then
      {s with destch2ext := s.destch2ext.filter (fun p => p.2 ≠ ext)}
    else s
  let calls := (s.active_calls.filter (fun p => p.2.channel ≠ some ch)).map
    (fun p => if p.2.destchannel = some ch then (p.1, {p.2 with destchannel := none}) else p)
  {s with active_calls := calls}

/-- Embeds `_ev_Hangup`.  Returns the new state together with the CRM
hand-offs scheduled while processing the event. -/
def _ev_Hangup (s : St) (channel uniqueid0 _cause0 linkedid0 : Option Str) :
    St × List Handoff :=
  let ch := g channel
  if ch.isEmpty then (s, [])
  else
    let uniqueid := orS (g uniqueid0) (g (alookup s.ch2uniqueid ch))
    let (_queueN, s) := hangupQueueCleanup s ch uniqueid
    let event_linkedid := g linkedid0
    let tracked_linkedid := g (alookup s.ch2linkedid ch)
    let linkedid := orS event_linkedid tracked_linkedid
    let s :=
      if !event_linkedid.isEmpty && tracked_linkedid.isEmpty then
        {s with ch2linkedid := aset s.ch2linkedid ch event_linkedid,
                linkedid2channels := groupAdd s.linkedid2channels event_linkedid ch}
      else s
    match hangupLinkedid s ch linkedid with
    | none => (s, [])
    | some (isF0, s) =>
      let extPop := g (alookup s.ch2ext ch)
      let s := {s with ch2ext := aerase s.ch2ext ch}
      let ext := orS extPop ((_ext_from_channel ch).getD [])
      let caller_ext := g (alookup s.destch2ext ch)
      let s := {s with destch2ext := aerase s.destch2ext ch}
      let isFinal := if isTrunkChannel ch then false else isF0
      let (s, hs1) :=
        if !caller_ext.isEmpty && !(!ext.isEmpty && amem s.active_calls ext) then
          hangupCallerPath s ch caller_ext ext linkedid uniqueid isFinal
        else (s, [])
      let (s, hs2) :=
        if !ext.isEmpty then hangupExtPath s ch ext linkedid uniqueid isFinal
        else (s, [])
      (hangupCleanup s ch ext, hs1 ++ hs2)

/-! ### Queue and agent event handlers -/

/-- Embeds `_ev_QueueMemberStatus`. -/
def _ev_QueueMemberStatus (s : St) (now : Nat)
    (queue0 interface0 memberName status0 paused0 : Option Str) : St :=
  let queue := g queue0
  let member := g interface0
  let membername := memberName.getD member
  let status := _queue_member_status (g status0)
  let paused := paused0.getD (s2l "0") = s2l "1"
  if !queue.isEmpty && !member.isEmpty then
    let member_key := queue ++ ':' :: member
    let is_dynamic := member_key ∈ s.dynamic_members
    let qm : QMember := {queue := queue, interface := member, membername := membername,
                         status := status, paused := paused, dynamic := is_dynamic,
                         last_update := now}
    let s := {s with queue_members := aset s.queue_members member_key qm}
    let qi := (alookup s.queues queue).getD {}
    let mv : QMemberView := {status := status, paused := paused,
                             membername := membername, dynamic := is_dynamic}
    let qi := {qi with members := aset qi.members member mv}
    {s with queues := aset s.queues queue qi}
  else s

/-- Embeds `_ev_QueueMemberAdded` (the only event, with `QueueRemove`
feedback, that marks a member dynamic). -/
def _ev_QueueMemberAdded (s : St) (now : Nat)
    (queue0 interface0 memberName paused0 : Option Str) : St :=
  let queue := g queue0
  let member := g interface0
  let membername := memberName.getD member
  let paused := paused0.getD (s2l "0") = s2l "1"
  if !queue.isEmpty && !member.isEmpty then
    let member_key := queue ++ ':' :: member
    let s := {s with dynamic_members := sadd s.dynamic_members member_key}
    let qm : QMember := {queue := queue, interface := member, membername := membername,
                         status := s2l "Not in use", paused := paused, dynamic := true,
                         last_update := now}
    let s := {s with queue_members := aset s.queue_members member_key qm}
    let qi := (alookup s.queues queue).getD {}
    let mv : QMemberView := {status := s2l "Not in use", paused := paused,
                             membername := membername, dynamic := true}
    let qi := {qi with members := aset qi.members member mv}
    {s with queues := aset s.queues queue qi}
  else s

/-- Embeds `_ev_QueueMemberRemoved`. -/
def _ev_QueueMemberRemoved (s : St) (queue0 interface0 : Option Str) : St :=
  let queue := g queue0
  let member := g interface0
  if !queue.isEmpty && !member.isEmpty then
    let member_key := queue ++ ':' :: member
    let s := {s with queue_members := aerase s.queue_members member_key,
                     dynamic_members := sdel s.dynamic_members member_key}
    match alookup s.queues queue with
    | some qi =>
      if amem qi.members member then
        let qi := {qi with members := aerase qi.members member}
        {s with queues := aset s.queues queue qi}
      else s
    | none => s
  else s

/-- Embeds `_ev_QueueMemberPaused` (also run for `QueueMemberUnpause`). -/
def _ev_QueueMemberPaused (s : St) (queue0 interface0 paused0 reason0 : Option Str) : St :=
  let queue := g queue0
  let member := g interface0
  let paused := paused0.getD (s2l "0") = s2l "1"
  let reason := g reason0
  if !queue.isEmpty && !member.isEmpty then
    let member_key := queue ++ ':' :: member
    let s :=
      match alookup s.queue_members member_key with
      | some qm =>
        let qm := {qm with paused := paused}
        let qm := if !reason.isEmpty then {qm with pause_reason := some reason} else qm
        {s with queue_members := aset s.queue_members member_key qm}
      | none => s
    match alookup s.queues queue with
    | some qi =>
      match alookup qi.members member with
      | some mv =>
        let qi := {qi with members := aset qi.members member {mv with paused := paused}}
        {s with queues := aset s.queues queue qi}
      | none => s
    | none => s
  else s

/-- Common body of `_ev_QueueEntry` and `_ev_QueueCallerJoin`; the two
handlers differ only in that `QueueCallerJoin` stamps the external
caller's `start_time` unconditionally while `QueueEntry` preserves an
existing one. -/
def joinTrackChan (s : St) (channel uniqueid : Str) : St :=
  if !channel.isEmpty && !uniqueid.isEmpty then
    {s with ch2uniqueid := aset s.ch2uniqueid channel uniqueid} else s

/-- The internal-caller record update of the queue-join handlers. -/
def joinCallerInfo (s : St) (queue channel : Str) : St :=
  if !channel.isEmpty then
    let caller_ext := g (alookup s.ch2ext channel)
    if !caller_ext.isEmpty then
      match alookup s.active_calls caller_ext with
      | some call_info =>
        let ci := {call_info with queue := some queue, queue_waiting := some true,
                                  queue_caller_channel := some channel}
        {s with active_calls := aset s.active_calls caller_ext ci}
      | none => s
    else s
  else s

/-- The external-caller record update of the queue-join handlers. -/
def joinCalleridInfo (s : St) (now : Nat) (uncondStart : Bool)
    (queue callerid channel linkedid : Str) : St :=
  if _meaningful callerid && callerid ≠ s2l "Unknown" then
    let ci : CallInfo := (alookup s.active_calls callerid).getD {}
    let ci : CallInfo :=
      {ci with
        queue := some queue, queue_waiting := some true,
        queue_caller_channel := some channel, callerid := some callerid}
    let ci : CallInfo :=
      if uncondStart then {ci with start_time := some now}
      else if ci.start_time = none then {ci with start_time := some now} else ci
    let ci := if !linkedid.isEmpty then {ci with linkedid := some linkedid} else ci
    {s with active_calls := aset s.active_calls callerid ci}
  else s

def queueJoinCore (s : St) (now : Nat) (uncondStart : Bool)
    (queue0 uniqueid0 callerIDNum callerID position0 channel0 linkedid0 : Option Str) :
    St :=
  let queue := g queue0
  let uniqueid := g uniqueid0
  let callerid := match callerIDNum with
    | some v => v
    | none => callerID.getD (s2l "Unknown")
  let position := g position0
  let channel := g channel0
  let linkedid := g linkedid0
  if !queue.isEmpty && !uniqueid.isEmpty then
    let ent : QEntry := {queue := queue, callerid := callerid,
                         position := if isDigits position then parseNat position else 0,
                         entry_time := now}
    let s := {s with queue_entries := aset s.queue_entries uniqueid ent}
    let s := joinTrackChan s channel uniqueid
    let s := joinCallerInfo s queue channel
    let s := joinCalleridInfo s now uncondStart queue callerid channel linkedid
    let qi := (alookup s.queues queue).getD {}
    let s := {s with queues := aset s.queues queue qi}
    {s with queues := recountQ s.queues s.queue_entries queue}
  else s

/-- Embeds `_ev_QueueEntry`. -/
def _ev_QueueEntry (s : St) (now : Nat)
    (queue0 uniqueid0 callerIDNum callerID position0 channel0 linkedid0 : Option Str) :
    St :=
  queueJoinCore s now false queue0 uniqueid0 callerIDNum callerID position0 channel0
    linkedid0

/-- Embeds `_ev_QueueCallerJoin`. -/
def _ev_QueueCallerJoin (s : St) (now : Nat)
    (queue0 uniqueid0 callerIDNum callerID position0 channel0 linkedid0 : Option Str) :
    St :=
  queueJoinCore s now true queue0 uniqueid0 callerIDNum callerID position0 channel0
    linkedid0

/-- Embeds `_ev_QueueCallerLeave`. -/
def _ev_QueueCallerLeave (s : St) (uniqueid0 : Option Str) : St :=
  let uniqueid := g uniqueid0
  match alookup s.queue_entries uniqueid with
  | some ent =>
    let entries := aerase s.queue_entries uniqueid
    {s with queue_entries := entries, queues := recountQ s.queues entries ent.queue}
  | none => s

/-- Agent extension resolution shared by `_ev_AgentCalled` /
`_ev_AgentConnect` (`interface.split('/')[-1]`, falling back to the agent
channel name). -/
def agentExtOf (agent_member agent_channel : Str) : Str :=
  let a1 := if !agent_member.isEmpty && decide ('/' ∈ agent_member) then
      lastSeg agent_member else []
  if a1.isEmpty && !agent_channel.isEmpty then (_ext_from_channel agent_channel).getD []
  else a1

/-- Embeds `_ev_AgentCalled`. -/
def _ev_AgentCalled (s : St)
    (queue0 destChannel agentChannel interface0 callerIDNum callerID linkedid0 :
      Option Str) : St :=
  let queue := g queue0
  let agent_channel := match destChannel with
    | some v => v
    | none => g agentChannel
  let agent_member := g interface0
  let callerid := match callerIDNum with
    | some v => v
    | none => g callerID
  let linkedid := g linkedid0
  let agent_ext := agentExtOf agent_member agent_channel
  if agent_ext.isEmpty then s
  else
    let agent_info := (alookup s.active_calls agent_ext).getD {}
    let agent_info := if _meaningful callerid then
        {agent_info with caller := some callerid, queue_caller := some callerid}
      else agent_info
    let agent_info := if !queue.isEmpty then {agent_info with queue := some queue}
      else agent_info
    let agent_info := if !linkedid.isEmpty then {agent_info with linkedid := some linkedid}
      else agent_info
    let s := {s with active_calls := aset s.active_calls agent_ext agent_info}
    if _meaningful callerid then
      match alookup s.active_calls callerid with
      | some caller_info =>
        let agent_info := (alookup s.active_calls agent_ext).getD {}
        let agent_info := {agent_info with
          queue_waiting := some (gb caller_info.queue_waiting),
          queue_caller_channel := some (g caller_info.queue_caller_channel)}
        {s with active_calls := aset s.active_calls agent_ext agent_info}
      | none => s
    else s

/-- The agent-record update of `_ev_AgentConnect`. -/
def agentConnectAgent (s : St) (now : Nat) (agent_ext queue callerid linkedid : Str) :
    St :=
  match alookup s.active_calls agent_ext with
  | none => s
  | some agent_info =>
    let agent_info :=
      {agent_info with
        dialstatus := some (s2l "ANSWER"), queue_answered := some true,
        queue_waiting := some false, answered_agent := some agent_ext}
    let agent_info := if _meaningful callerid then
        {agent_info with caller := some callerid, queue_caller := some callerid}
      else agent_info
    let agent_info := if !queue.isEmpty then {agent_info with queue := some queue}
      else agent_info
    let agent_info := if !linkedid.isEmpty then {agent_info with linkedid := some linkedid}
      else agent_info
    let agent_info := if agent_info.answer_time = none || agent_info.answer_time = some none
      then {agent_info with answer_time := some (some now)} else agent_info
    {s with active_calls := aset s.active_calls agent_ext agent_info}

/-- The external-caller record update of `_ev_AgentConnect`. -/
def agentConnectCaller (s : St) (agent_ext queue callerid linkedid : Str) : St :=
  let (s, caller_info) :=
    match alookup s.active_calls callerid with
    | some ci => (s, ci)
    | none =>
      let ci : CallInfo := {callerid := some callerid}
      ({s with active_calls := aset s.active_calls callerid ci}, ci)
  let caller_info :=
    {caller_info with
      dialstatus := some (s2l "ANSWER"), queue_answered := some true,
      queue_waiting := some false, answered_agent := some agent_ext,
      destination := some agent_ext}
  let caller_info := if !queue.isEmpty then {caller_info with queue := some queue}
    else caller_info
  let caller_info := if !linkedid.isEmpty then {caller_info with linkedid := some linkedid}
    else caller_info
  {s with active_calls := aset s.active_calls callerid caller_info}

/-- The linkedid-propagation sweep of `_ev_AgentConnect`. -/
def agentConnectSweep (s : St) (agent_ext queue callerid linkedid : Str) : St :=
  let calls := s.active_calls.map (fun p =>
    if (p.2.linkedid = some linkedid ||
        (isDigits p.1 && decide (3 ≤ p.1.length) && decide (p.1.length ≤ 5))) &&
       g (alookup s.ch2linkedid (g p.2.channel)) = linkedid then
      let info := p.2
      let info := if _meaningful callerid then
          {info with caller := some callerid, queue_caller := some callerid}
        else info
      let info := if !queue.isEmpty then {info with queue := some queue} else info
      let info :=
        {info with
          dialstatus := some (s2l "ANSWER"), queue_answered := some true,
          queue_waiting := some false, answered_agent := some agent_ext}
      (p.1, info)
    else p)
  {s with active_calls := calls}

/-- Embeds `_ev_AgentConnect`. -/
def _ev_AgentConnect (s : St) (now : Nat)
    (queue0 memberChannel interface0 member0 callerIDNum callerID linkedid0
     channel0 : Option Str) : St :=
  let queue := g queue0
  let agent_channel := match memberChannel with
    | some v => v
    | none => g channel0
  let agent_member := match interface0 with
    | some v => v
    | none => g member0
  let callerid := match callerIDNum with
    | some v => v
    | none => g callerID
  let linkedid := g linkedid0
  let agent_ext := agentExtOf agent_member agent_channel
  let s := if !agent_ext.isEmpty then
      agentConnectAgent s now agent_ext queue callerid linkedid
    else s
  let s := if _meaningful callerid then
      agentConnectCaller s agent_ext queue callerid linkedid
    else s
  if !linkedid.isEmpty then agentConnectSweep s agent_ext queue callerid linkedid
  else s

/-! ## The CRM publisher sink: `_send_crm_data`

The coroutine composes a payload from a `Call` record and a Hangup event
and enqueues it on the CRM connector.  It is embedded as a pure function
returning `none` whenever the source returns without calling
`CRMConnector.format_call_data_for_crm`. -/

/-- The record handed to `CRMConnector.format_call_data_for_crm`.
`queue = []` models the Python `None`; `dt` is the serialized start time. -/
structure Payload where
  caller : Str
  destination : Str
  duration : Nat
  dt : Nat
  call_status : Str
  queue : Str
  call_type : Str
  talk_time : Nat
deriving DecidableEq

/-- The effective queue flags used by the queue-waiting gate of
`_send_crm_data`: the record's own `queue_waiting` / `queue_answered` /
`queue_caller_channel`, overridden from the caller's record when the
record names a different extension as `queue_caller` (or `caller`) that is
present in `active_calls`. -/
def effQueueFlags (ext : Str) (ci : CallInfo) (active : List (Str × CallInfo)) :
    Bool × Bool × Str :=
  let qw := gb ci.queue_waiting
  let qa := gb ci.queue_answered
  let qcc := g ci.queue_caller_channel
  let qc := orS (g ci.queue_caller) (g ci.caller)
  if !qc.isEmpty && qc ≠ ext then
    match alookup active qc with
    | some cci =>
      (cci.queue_waiting.getD qw, cci.queue_answered.getD qa,
       cci.queue_caller_channel.getD qcc)
    | none => (qw, qa, qcc)
  else (qw, qa, qcc)

/-- The caller/destination direction logic of `_send_crm_data`
(source lines choosing between the queue-call, incoming and outbound
shapes). -/
def crmDirection (ext : Str) (ci : CallInfo) (queue incoming_caller original_dest : Str) :
    Str × Str :=
  let is_external_caller := !ext.isEmpty &&
    (!isDigits ext || decide (ext.length < 3) || decide (5 < ext.length))
  if !queue.isEmpty && !incoming_caller.isEmpty && incoming_caller ≠ ext &&
     (decide (5 < incoming_caller.length) || !isDigits incoming_caller) then
    (incoming_caller, ext)
  else if (!incoming_caller.isEmpty && incoming_caller ≠ ext) || is_external_caller then
    if is_external_caller then
      let destination :=
        if !ext.isEmpty && isDigits ext && decide (3 ≤ ext.length) &&
           decide (ext.length ≤ 5) then ext
        else
          let destination := g ci.destination
          if !queue.isEmpty && destination = queue then
            let connected_dest := g ci.destination
            if !connected_dest.isEmpty && connected_dest ≠ queue &&
               isDigits connected_dest && decide (3 ≤ connected_dest.length) &&
               decide (connected_dest.length ≤ 5) then connected_dest
            else destination
          else destination
      (ext, destination)
    else (incoming_caller, ext)
  else
    let destination := original_dest
    let destination :=
      if !queue.isEmpty && destination = queue then
        let connected_dest := g ci.destination
        if !connected_dest.isEmpty && connected_dest ≠ queue &&
           isDigits connected_dest && decide (3 ≤ connected_dest.length) &&
           decide (connected_dest.length ≤ 5) then connected_dest
        else destination
      else destination
    (ext, destination)

/-- The status as finally composed by `_send_crm_data`: the cause/dial
mapping, overridden to `completed` when the record's own `queue_answered`
flag is set and the mapped status is `noanswer`/`failed`. -/
def crmFinalStatus (ci : CallInfo) (cause : Str) : Str :=
  let call_status := map_cause_to_status cause (g ci.dialstatus)
  if gb ci.queue_answered &&
     (call_status = s2l "noanswer" || call_status = s2l "failed") then
    s2l "completed"
  else call_status

/-- The effective queue of the payload: the argument passed by
`_ev_Hangup`, falling back to the record's own `queue` field. -/
def crmQueueOf (ci : CallInfo) (queue0 : Str) : Str := orS queue0 (g ci.queue)

/-- The `incoming_caller` of `_send_crm_data`: queue caller, `caller`, or
`callerid`, discarded when it is the extension itself written as an
internal number. -/
def crmIncomingCaller (ext : Str) (ci : CallInfo) : Str :=
  let ic0 := orS (g ci.queue_caller) (orS (g ci.caller) (g ci.callerid))
  if !ic0.isEmpty && isDigits ic0 && decide (ic0.length ≤ 5) && ic0 = ext then []
  else ic0

/-- The final `(caller, destination)` pair of `_send_crm_data`: the
direction logic followed by the `answered_agent` destination fixup. -/
def crmCallerDest (ext : Str) (ci : CallInfo) (queue0 : Str) : Str × Str :=
  let queue := crmQueueOf ci queue0
  let original_dest := orS (g ci.original_destination)
    (orS (g ci.destination) (g ci.exten))
  let (caller, destination) :=
    crmDirection ext ci queue (crmIncomingCaller ext ci) original_dest
  let answered_agent := g ci.answered_agent
  let destination :=
    if !queue.isEmpty && destination = queue && _meaningful answered_agent then
      answered_agent
    else destination
  (caller, destination)

/-- The `call_type` classification of `_send_crm_data`. -/
def crmCallType (ext : Str) (ci : CallInfo) (destination : Str) : Str :=
  let incoming_caller := crmIncomingCaller ext ci
  if !incoming_caller.isEmpty && incoming_caller ≠ ext then s2l "inbound"
  else if !destination.isEmpty && destination ≠ ext then
    if isDigits destination && decide (3 ≤ destination.length) &&
       decide (destination.length ≤ 5) then s2l "internal"
    else s2l "outbound"
  else s2l "internal"

/-- Duration bookkeeping of `_send_crm_data`: seconds since `start_time`
and the serialized start instant (`now` twice when there is none). -/
def crmDuration (now : Nat) (ci : CallInfo) : Nat × Nat :=
  match ci.start_time with
  | some t => (now - t, t)
  | none => (0, now)

/-- Talk time of `_send_crm_data`: seconds since `answer_time`, `0` when
the call was never answered. -/
def crmTalk (now : Nat) (ci : CallInfo) : Nat :=
  match ci.answer_time with
  | some (some t) => now - t
  | _ => 0

/-- The payload record built by `_send_crm_data` when nothing suppresses
the emission. -/
def crmPayload (now : Nat) (ext : Str) (ci : CallInfo) (cause : Str)
    (queue0 : Str) : Payload :=
  {caller := (crmCallerDest ext ci queue0).1,
   destination := (crmCallerDest ext ci queue0).2,
   duration := (crmDuration now ci).1, dt := (crmDuration now ci).2,
   call_status := crmFinalStatus ci cause,
   queue := crmQueueOf ci queue0,
   call_type := crmCallType ext ci (crmCallerDest ext ci queue0).2,
   talk_time := crmTalk now ci}

/-- Payload composition of `_send_crm_data` after the queue-waiting gate
passed: drop the record when the extension is the queue itself or when
caller/destination are not meaningful, otherwise emit the payload. -/
def crmCompose (now : Nat) (ext : Str) (ci : CallInfo) (cause : Str)
    (queue0 : Str) : Option Payload :=
  let queue := crmQueueOf ci queue0
  if !queue.isEmpty && ext = queue then none
  else if !_meaningful (crmCallerDest ext ci queue0).1 ||
          !_meaningful (crmCallerDest ext ci queue0).2 then none
  else some (crmPayload now ext ci cause queue0)

/-- The queue-waiting gate of `_send_crm_data`: with the effective flags
indicating a still-waiting queue call, only the caller's own hangup passes
(both agent ring-timeout legs and unrelated channels are dropped). -/
def crmQueueGatePasses (ext hangupChannel : Str) (qw qa : Bool) (qcc : Str) : Bool :=
  if qw && !qa then
    let is_caller_hangup := !qcc.isEmpty && hangupChannel = qcc
    let is_agent_ext := !ext.isEmpty && isDigits ext && decide (3 ≤ ext.length) &&
      decide (ext.length ≤ 5)
    if is_agent_ext && !is_caller_hangup then false
    else if !is_caller_hangup then false
    else true
  else true

/-- Embeds `_send_crm_data`: the full composition including the
queue-waiting gate.  `hangupChannel` and `cause` come from the Hangup
event; `queue0` is the queue argument passed by `_ev_Hangup` (`[]` for
`None`); `active` is `self.active_calls` at coroutine execution time. -/
def _send_crm_data (now : Nat) (ext : Str) (ci : CallInfo)
    (hangupChannel cause : Str) (queue0 : Str)
    (active : List (Str × CallInfo)) : Option Payload :=
  let (qw, qa, qcc) := effQueueFlags ext ci active
  if crmQueueGatePasses ext hangupChannel qw qa qcc then
    crmCompose now ext ci cause queue0
  else none

/-! ## Watched events and the dispatcher -/

/-- The watched AMI events (`WATCHED_EVENTS`), with the header fields each
handler consumes.  `PeerStatus` and `AgentComplete` have no state effect;
`QueueMemberPause`, `QueueMemberRingInUse` and `QueueSummary` are watched
but have no `_ev_` handler, so `_dispatch_async` ignores them. -/
inductive Ev where
  | ExtensionStatus (exten status : Option Str)
  | PeerStatus
  | DeviceStateChange (device state : Option Str)
  | Newchannel (channel callerIDNum callerIDName exten uniqueid linkedid
      context connectedLineNum : Option Str)
  | Hangup (channel uniqueid cause linkedid : Option Str)
  | Dial (channel destination dialStatus dialString dialstring destExten : Option Str)
  | DialBegin (channel destExten dialString destChannel : Option Str)
  | DialEnd (channel destExten destChannel dialStatus : Option Str)
  | Bridge (channel1 channel2 linkedid : Option Str)
  | NewCallerid (channel callerIDNum exten : Option Str)
  | Newstate (channel channelStateDesc channelState : Option Str)
  | VarSet (channel varName value : Option Str)
  | QueueMemberStatus (queue interface memberName status paused : Option Str)
  | QueueMemberAdded (queue interface memberName paused : Option Str)
  | QueueMemberRemoved (queue interface : Option Str)
  | QueueMemberPause
  | QueueMemberPaused (queue interface paused reason : Option Str)
  | QueueMemberUnpause (queue interface paused reason : Option Str)
  | QueueMemberRingInUse
  | QueueSummary
  | QueueEntry (queue uniqueid callerIDNum callerID position channel
      linkedid : Option Str)
  | QueueCallerJoin (queue uniqueid callerIDNum callerID position channel
      linkedid : Option Str)
  | QueueCallerLeave (queue uniqueid : Option Str)
  | AgentCalled (queue destChannel agentChannel interface callerIDNum callerID
      linkedid : Option Str)
  | AgentConnect (queue memberChannel interface member callerIDNum callerID
      linkedid channel : Option Str)
  | AgentComplete
deriving DecidableEq

/-- Is the event a `Hangup`. -/
def isHangupEv : Ev → Bool
  | .Hangup _ _ _ _ => true
  | _ => false

/-- Embeds `_dispatch_async` restricted to its state effect: route a
watched event to its handler.  Returns the new state and the CRM hand-offs
scheduled while processing. -/
def applyEv (now : Nat) (s : St) (e : Ev) : St × List Handoff :=
  match e with
  | .ExtensionStatus exten status => (_ev_ExtensionStatus s exten status, [])
  | .PeerStatus => (s, [])
  | .DeviceStateChange device state => (_ev_DeviceStateChange s device state, [])
  | .Newchannel a b c d e f h i => (_ev_Newchannel s now a b c d e f h i, [])
  | .Hangup a b c d => _ev_Hangup s a b c d
  | .Dial a b c d e f => (_ev_Dial s a b c d e f, [])
  | .DialBegin a b c d => (_ev_DialBegin s now a b c d, [])
  | .DialEnd a b c d => (_ev_DialEnd s a b c d, [])
  | .Bridge a b c => (_ev_Bridge s a b c, [])
  | .NewCallerid a b c => (_ev_NewCallerid s a b c, [])
  | .Newstate a b c => (_ev_Newstate s now a b c, [])
  | .VarSet a b c => (_ev_VarSet s a b c, [])
  | .QueueMemberStatus a b c d e => (_ev_QueueMemberStatus s now a b c d e, [])
  | .QueueMemberAdded a b c d => (_ev_QueueMemberAdded s now a b c d, [])
  | .QueueMemberRemoved a b => (_ev_QueueMemberRemoved s a b, [])
  | .QueueMemberPause => (s, [])
  | .QueueMemberPaused a b c d => (_ev_QueueMemberPaused s a b c d, [])
  | .QueueMemberUnpause a b c d => (_ev_QueueMemberPaused s a b c d, [])
  | .QueueMemberRingInUse => (s, [])
  | .QueueSummary => (s, [])
  | .QueueEntry a b c d e f h => (_ev_QueueEntry s now a b c d e f h, [])
  | .QueueCallerJoin a b c d e f h => (_ev_QueueCallerJoin s now a b c d e f h, [])
  | .QueueCallerLeave _ b => (_ev_QueueCallerLeave s b, [])
  | .AgentCalled a b c d e f h => (_ev_AgentCalled s a b c d e f h, [])
  | .AgentConnect a b c d e f h i => (_ev_AgentConnect s now a b c d e f h i, [])
  | .AgentComplete => (s, [])

/-- Run a trace of events from a state, with ticks `now, now+1, ...`,
accumulating all CRM hand-offs. -/
def runAux (now : Nat) (s : St) (hs : List Handoff) : List Ev → St × List Handoff
  | [] => (s, hs)
  | e :: rest =>
    let (s1, h1) := applyEv now s e
    runAux (now + 1) s1 (hs ++ h1) rest

/-- Run a trace from the freshly constructed monitor. -/
def runTrace (es : List Ev) : St × List Handoff := runAux 1 initSt [] es

/-! ## Periodic queue sync (`sync_queue_status`)

The sync issues `QueueSummary` and per-queue `QueueStatus` actions and
rebuilds queue state from the parsed responses.  The transport and parsing
are outside the claims; the embedding takes the parsed artefacts: the
summary rows, and the `QueueMember` / `QueueEntry` items of the
`QueueStatus` responses in arrival order. -/

/-- One parsed `QueueSummary` row. -/
structure QSummary where
  queue : Str
  callers : Nat := 0
  available : Nat := 0
  logged_in : Nat := 0
  hold_time : Str := []
  talk_time : Str := []
deriving DecidableEq

/-- One parsed `QueueMember` item of a `QueueStatus` response. -/
structure SyncMemberItem where
  queue : Str
  interface : Str
  membername : Option Str := none
  status : Option Str := none
  paused : Bool := false
  membership : Str := []
deriving DecidableEq

/-- One parsed `QueueEntry` item of a `QueueStatus` response. -/
structure SyncEntryItem where
  queue : Str
  uniqueid : Str
  callerid : Option Str := none
  position : Nat := 0
  wait : Nat := 0
deriving DecidableEq

/-- A `QueueStatus` item in response order. -/
inductive SyncItem where
  | member (m : SyncMemberItem)
  | entry (e : SyncEntryItem)
deriving DecidableEq

/-- Embeds `_add_queue_member`. -/
def _add_queue_member (s : St) (now : Nat) (it : SyncMemberItem) : St :=
  let membername := it.membername.getD it.interface
  let status_raw := it.status.getD (s2l "Unknown")
  let status := if isDigits status_raw then _queue_member_status status_raw else status_raw
  let membership := lowerS it.membership
  let member_key := it.queue ++ ':' :: it.interface
  let (is_dynamic, s) :=
    if membership = s2l "dynamic" then
      (true, {s with dynamic_members := sadd s.dynamic_members member_key})
    else if membership = s2l "static" || membership = s2l "realtime" then
      (false, {s with dynamic_members := sdel s.dynamic_members member_key})
    else (member_key ∈ s.dynamic_members, s)
  let qm : QMember := {queue := it.queue, interface := it.interface,
                       membername := membername, status := status, paused := it.paused,
                       dynamic := is_dynamic, last_update := now}
  let s := {s with queue_members := aset s.queue_members member_key qm}
  match alookup s.queues it.queue with
  | some qi =>
    let mv : QMemberView := {membername := membername, status := status,
                             paused := it.paused, dynamic := is_dynamic}
    let qi := {qi with members := aset qi.members it.interface mv}
    {s with queues := aset s.queues it.queue qi}
  | none => s

/-- Embeds `_add_queue_entry`. -/
def _add_queue_entry (s : St) (now : Nat) (it : SyncEntryItem) : St :=
  let entry_time := if it.wait ≠ 0 then now - it.wait else now
  let ent : QEntry := {queue := it.queue, callerid := it.callerid.getD (s2l "Unknown"),
                       position := it.position, entry_time := entry_time}
  let s := {s with queue_entries := aset s.queue_entries it.uniqueid ent}
  {s with queues := recountQ s.queues s.queue_entries it.queue}

/-- Embeds `sync_queue_status` after response parsing: clear stale entries
(zeroing the waiting counts of the queues that had them), seed every
summary queue with the reported aggregate stats (`calls_waiting` from the
`Callers` column), then replay the `QueueStatus` items in order. -/
def sync_queue_status (s : St) (now : Nat) (summary : List QSummary)
    (items : List SyncItem) : St :=
  let old_entries := s.queue_entries
  let s := {s with queue_entries := []}
  let s := old_entries.foldl (fun s p =>
    if p.2.queue.isEmpty then s
    else
      match alookup s.queues p.2.queue with
      | some qi => {s with queues := aset s.queues p.2.queue {qi with calls_waiting := 0}}
      | none => s) s
  let s := summary.foldl (fun s qs =>
    let qi : QueueInfo := {members := [], calls_waiting := qs.callers,
                           available := qs.available, logged_in := qs.logged_in,
                           hold_time := qs.hold_time, talk_time := qs.talk_time}
    {s with queues := aset s.queues qs.queue qi}) s
  items.foldl (fun s it =>
    match it with
    | .member m => _add_queue_member s now m
    | .entry e => _add_queue_entry s now e) s

/-! ## Invariants and comparison modulo mutable timestamps -/

/-- Zero out the mutable timestamps of a call record, preserving
presence/`None` structure. -/
def zeroCi (ci : CallInfo) : CallInfo :=
  {ci with start_time := none, answer_time := none}

/-- Erase the mutable timestamp fields everywhere (`start_time`,
`answer_time`, `entry_time`, `last_update`), for comparison of states up
to exactly those fields (the comparison the idempotence claim asks for). -/
def stripTime (s : St) : St :=
  {s with active_calls := s.active_calls.map (fun p => (p.1, zeroCi p.2)),
          queue_entries := s.queue_entries.map (fun p => (p.1, {p.2 with entry_time := 0})),
          queue_members := s.queue_members.map (fun p => (p.1, {p.2 with last_update := 0}))}

/-- `stripTime` together with erasure of the `linkedid_crm_sent` marker
set: comparison of states up to the mutable timestamps and the
at-most-once markers. -/
def stripMut (s : St) : St :=
  {stripTime s with linkedid_crm_sent := []}

/-- Well-formedness of the channel-to-extension cache, maintained by every
handler from the fresh state: a channel whose name carries extension
digits (`/<digits>-`) is only ever cached as that extension (or a
placeholder empty value).  Reachable correlator states satisfy this. -/
def ch2extConsistent (s : St) : Prop :=
  ∀ p ∈ s.ch2ext, p.2 = [] ∨ _ext_from_channel p.1 = none ∨ _ext_from_channel p.1 = some p.2

/-- The queue-counting invariant of the specification, strengthened with
the bookkeeping fact that every entry's queue is a known queue (which
itself holds in every reachable state). -/
def queueCountInv (s : St) : Prop :=
  (∀ p ∈ s.queues, p.2.calls_waiting = countQ s.queue_entries p.1) ∧
  (∀ p ∈ s.queue_entries, amem s.queues p.2.queue = true)

/-- `queueCountInv` together with the key discipline Python dictionaries
keep by construction: no duplicate uniqueid among the queue entries and no
duplicate queue name in the queues map. -/
def qStateInv (s : St) : Prop :=
  queueCountInv s ∧
  (s.queue_entries.map Prod.fst).Nodup ∧
  (s.queues.map Prod.fst).Nodup

/-- The re-keying proviso for the queue-join events: the event's uniqueid,
if already a queue entry, stays in the same queue.  All other events carry
no proviso. -/
def noRequeue (s : St) : Ev → Prop
  | .QueueEntry q u _ _ _ _ _ =>
    ∀ ent, alookup s.queue_entries (g u) = some ent → ent.queue = g q
  | .QueueCallerJoin q u _ _ _ _ _ =>
    ∀ ent, alookup s.queue_entries (g u) = some ent → ent.queue = g q
  | _ => True

/-- The degenerate-event provisos of the idempotence analysis.  An
`AgentConnect` whose resolved caller id is meaningful and coincides with
the resolved agent extension must find an existing agent `Call` record
(otherwise the caller-side record the first pass creates is adopted as the
agent record by the second pass, which then fills its `caller` field — a
genuine state change beyond timestamps).  A `DialEnd` must not name its
own channel as the destination channel (otherwise the destination-side
`ch2ext[destch] = dest_ext` write re-keys the channel's cached extension,
and the second pass resolves a different extension).  All other events
carry no proviso. -/
def idemOk (s : St) : Ev → Prop
  | .DialEnd channel _ destChannel _ =>
    g destChannel = g channel → g destChannel = []
  | .AgentConnect _ memberChannel interface0 member0 callerIDNum callerID _ channel0 =>
    let agent_channel := match memberChannel with
      | some v => v
      | none => g channel0
    let agent_member := match interface0 with
      | some v => v
      | none => g member0
    let callerid := match callerIDNum with
      | some v => v
      | none => g callerID
    let agent_ext := agentExtOf agent_member agent_channel
    agent_ext ≠ [] → _meaningful callerid = true → callerid = agent_ext →
      amem s.active_calls agent_ext = true
  | _ => True

/-! ## Concrete fixtures used by witnesses and counterexamples -/

/-- A queue-call record whose own flags say waiting/unanswered, while the
caller's record (in `c3active`) says the agent answered. -/
def c3ci : CallInfo :=
  {queue_waiting := some true, queue_answered := some false,
   queue_caller := some (s2l "12345678901"), queue := some (s2l "sales"),
   original_destination := some (s2l "12345678901")}

/-- The caller's record backing `c3ci`. -/
def c3active : List (Str × CallInfo) :=
  [(s2l "12345678901",
    {queue_answered := some true, queue_waiting := some false})]

/-- A waiting queue caller's own record (used for the abandonment witness). -/
def c3caller : CallInfo :=
  {queue_waiting := some true,
   queue_caller_channel := some (s2l "X"), callerid := some (s2l "12345678901"),
   destination := some (s2l "200"), queue := some (s2l "sales")}

/-- An answered queue call record with a `noanswer` cause, for the
status-override witness. -/
def c5ci : CallInfo :=
  {queue_answered := some true, queue := some (s2l "sales"),
   queue_caller := some (s2l "12345678901")}

/-- A trace creating one channel for extension 110 under linkedid `L1` and
hanging it up (the final hangup of the group). -/
def traceOneCall : List Ev :=
  [Ev.Newchannel (some (s2l "PJSIP/110-a")) none none none (some (s2l "U1"))
     (some (s2l "L1")) none none,
   Ev.Hangup (some (s2l "PJSIP/110-a")) (some (s2l "U1")) (some (s2l "16"))
     (some (s2l "L1"))]

/-- `traceOneCall` followed by a second cycle reusing the same linkedid and
uniqueid on a fresh channel of extension 111. -/
def traceReuse : List Ev :=
  traceOneCall ++
  [Ev.Newchannel (some (s2l "PJSIP/111-b")) none none none (some (s2l "U1"))
     (some (s2l "L1")) none none,
   Ev.Hangup (some (s2l "PJSIP/111-b")) (some (s2l "U1")) (some (s2l "16"))
     (some (s2l "L1"))]

/-- One `Newchannel` for `PJSIP/110-a` with no identifiers at all. -/
def traceBareChannel : List Ev :=
  [Ev.Newchannel (some (s2l "PJSIP/110-a")) none none none none none none none]

/-- Two `QueueCallerJoin`s moving the same uniqueid between two queues. -/
def traceQueueMove : List Ev :=
  [Ev.QueueCallerJoin (some (s2l "q1")) (some (s2l "U")) (some (s2l "12345678901"))
     none (some (s2l "1")) (some (s2l "PJSIP/sbc-a")) none,
   Ev.QueueCallerJoin (some (s2l "q2")) (some (s2l "U")) (some (s2l "12345678901"))
     none (some (s2l "1")) (some (s2l "PJSIP/sbc-a")) none]


/-- A minimal state in which a `Hangup` produces a hand-off: one tracked
channel of extension 101 with an active-call record, a tracked linkedid and
a singleton linkedid group. -/
def c2ch : Str := s2l "PJSIP/101-00000001"

def c2L : Str := s2l "1700000000.1"

def c2ci : CallInfo := { channel := some c2ch }

def c2st : St :=
  { active_calls := [(s2l "101", c2ci)],
    ch2ext := [(c2ch, s2l "101")],
    ch2linkedid := [(c2ch, c2L)],
    linkedid2channels := [(c2L, [c2ch])] }

/-! ## Association-list lemmas -/

theorem alookup_aset_self {α : Type} (l : List (Str × α)) (k : Str) (v : α) :
    alookup (aset l k v) k = some v := by
  induction l with
  | nil => simp [aset, alookup]
  | cons p rest ih =>
    obtain ⟨a, b⟩ := p
    by_cases h : a = k
    · simp [aset, h, alookup]
    · simpa [aset, h, alookup] using ih

theorem alookup_aset_ne {α : Type} (l : List (Str × α)) (k k' : Str) (v : α)
    (h : k ≠ k') : alookup (aset l k v) k' = alookup l k' := by
  induction l with
  | nil => simp [aset, alookup, h]
  | cons p rest ih =>
    obtain ⟨a, b⟩ := p
    by_cases hp : a = k
    · subst hp
      simp [aset, alookup, h]
    · simp only [aset, hp, if_false, alookup]
      by_cases hq : a = k'
      · simp [hq]
      · simp [hq, ih]

theorem aset_eq_of_lookup {α : Type} (l : List (Str × α)) (k : Str) (v : α)
    (h : alookup l k = some v) : aset l k v = l := by
  induction l with
  | nil => simp [alookup] at h
  | cons p rest ih =>
    obtain ⟨a, b⟩ := p
    by_cases hp : a = k
    · subst hp
      simp only [alookup, if_true] at h
      cases h
      simp [aset]
    · simp only [alookup, hp, if_false] at h
      simp [aset, hp, ih h]

theorem aset_aset_same {α : Type} (l : List (Str × α)) (k : Str) (v w : α) :
    aset (aset l k v) k w = aset l k w := by
  induction l with
  | nil => simp [aset]
  | cons p rest ih =>
    obtain ⟨a, b⟩ := p
    by_cases hp : a = k
    · simp [aset, hp]
    · simp [aset, hp, ih]

theorem alookup_aerase_self {α : Type} (l : List (Str × α)) (k : Str) :
    alookup (aerase l k) k = none := by
  induction l with
  | nil => simp [aerase, alookup]
  | cons p rest ih =>
    obtain ⟨a, b⟩ := p
    by_cases hp : a = k
    · simpa [aerase, hp] using ih
    · simpa [aerase, alookup, hp] using ih

theorem aerase_nil {α : Type} (k : Str) : aerase ([] : List (Str × α)) k = [] := rfl

theorem alookup_aerase_ne {α : Type} (l : List (Str × α)) (k k' : Str)
    (h : k ≠ k') : alookup (aerase l k) k' = alookup l k' := by
  induction l with
  | nil => simp [aerase, alookup]
  | cons p rest ih =>
    obtain ⟨a, b⟩ := p
    by_cases hp : a = k
    · subst hp
      have : a ≠ k' := h
      simpa [aerase, alookup, this] using ih
    · by_cases hq : a = k'
      · subst hq
        simp [aerase, alookup, hp]
      · simpa [aerase, alookup, hp, hq] using ih

theorem aerase_of_absent {α : Type} (l : List (Str × α)) (k : Str)
    (h : alookup l k = none) : aerase l k = l := by
  induction l with
  | nil => simp [aerase]
  | cons p rest ih =>
    obtain ⟨a, b⟩ := p
    by_cases hp : a = k
    · simp [alookup, hp] at h
    · simp only [alookup, hp, if_false] at h
      simpa [aerase, hp] using ih h

theorem aerase_aset_self {α : Type} (l : List (Str × α)) (k : Str) (v : α) :
    aerase (aset l k v) k = aerase l k := by
  induction l with
  | nil => simp [aset, aerase]
  | cons p rest ih =>
    obtain ⟨a, b⟩ := p
    by_cases hp : a = k
    · simpa [aset, hp, aerase] using ih
    · simpa [aset, hp, aerase] using ih

theorem alookup_mem {α : Type} {l : List (Str × α)} {k : Str} {v : α}
    (h : alookup l k = some v) : (k, v) ∈ l := by
  induction l with
  | nil => simp [alookup] at h
  | cons p rest ih =>
    obtain ⟨a, b⟩ := p
    by_cases hp : a = k
    · subst hp
      simp only [alookup, if_true] at h
      cases h
      exact List.mem_cons_self _ _
    · simp only [alookup, hp, if_false] at h
      exact List.mem_cons_of_mem _ (ih h)

theorem alookup_append_right {α : Type} (l : List (Str × α)) (k k' : Str) (v : α)
    (h : alookup l k' = none) :
    alookup (l ++ [(k, v)]) k' = if k = k' then some v else none := by
  induction l with
  | nil => simp [alookup]
  | cons p rest ih =>
    obtain ⟨a, b⟩ := p
    by_cases hp : a = k'
    · simp [alookup, hp] at h
    · simp only [alookup, hp, if_false] at h
      simpa [alookup, hp] using ih h

theorem sdel_of_not_mem (l : List Str) (k : Str) (h : k ∉ l) : sdel l k = l := by
  induction l with
  | nil => simp [sdel]
  | cons a rest ih =>
    have ha : a ≠ k := by
      intro hk
      exact h (hk ▸ List.mem_cons_self _ _)
    have hr : k ∉ rest := fun hk => h (List.mem_cons_of_mem _ hk)
    simpa [sdel, ha] using ih hr

theorem sdel_append (l m : List Str) (k : Str) :
    sdel (l ++ m) k = sdel l k ++ sdel m k := by
  induction l with
  | nil => simp [sdel]
  | cons a rest ih =>
    by_cases ha : a = k
    · simp [sdel, ha, ih]
    · simp [sdel, ha, ih]

theorem sdel_sadd_of_not_mem (l : List Str) (k : Str) (h : k ∉ l) :
    sdel (sadd l k) k = l := by
  unfold sadd
  simp [h, sdel_append, sdel_of_not_mem l k h, sdel]

theorem filter_pairs_eq_self (l : List (Str × Str)) (v : Str)
    (h : ∀ p ∈ l, p.2 ≠ v) :
    l.filter (fun p => decide (p.2 ≠ v)) = l := by
  induction l with
  | nil => simp
  | cons p rest ih =>
    have hp := h p (List.mem_cons_self _ _)
    have hr : ∀ q ∈ rest, q.2 ≠ v := fun q hq => h q (List.mem_cons_of_mem _ hq)
    simp [List.filter_cons, hp, ih hr]
    exact fun a b hab => hr (a, b) hab

/-! ## String-level lemmas -/

theorem isDig_toLow {c : Char} (h : isDig c = true) : toLow c = c := by
  simp only [isDig, Bool.and_eq_true, decide_eq_true_eq] at h
  simp only [toLow, Bool.and_eq_true, decide_eq_true_eq]
  have : ¬(65 ≤ c.toNat ∧ c.toNat ≤ 90) := by omega
  simp only [ite_eq_right_iff]
  intro hc
  exact absurd ⟨hc.1, hc.2⟩ this

theorem lowerS_of_digits {w : Str} (h : isDigits w = true) : lowerS w = w := by
  simp only [isDigits, Bool.and_eq_true, List.all_eq_true] at h
  unfold lowerS
  induction w with
  | nil => rfl
  | cons c rest ih =>
    have hc : isDig c = true := h.2 c (List.mem_cons_self _ _)
    have hrest : (!rest.isEmpty) = true ∨ rest = [] := by
      cases rest
      · right; rfl
      · left; rfl
    simp only [List.map]
    rw [isDig_toLow hc]
    cases rest with
    | nil => rfl
    | cons d tail =>
      have := ih ⟨rfl, fun x hx => h.2 x (List.mem_cons_of_mem _ hx)⟩
      rw [this]

theorem digits_nonempty {w : Str} (h : isDigits w = true) : w.isEmpty = false := by
  simp only [isDigits, Bool.and_eq_true] at h
  cases hw : w.isEmpty
  · rfl
  · rw [hw] at h
    simp at h

theorem digits_not_star {w : Str} (h : isDigits w = true) :
    startsW (s2l "*") w = false := by
  cases w with
  | nil => simp [isDigits, List.isEmpty] at h
  | cons c rest =>
    simp only [isDigits, Bool.and_eq_true, List.all_eq_true] at h
    have hc : isDig c = true := h.2 c (List.mem_cons_self _ _)
    simp only [isDig, Bool.and_eq_true, decide_eq_true_eq] at hc
    have : ('*' : Char) ≠ c := by
      intro hcc
      rw [← hcc] at hc
      revert hc
      decide
    simp [s2l, startsW, String.data, this]

theorem digits_not_in_ctx {w : Str} (h : isDigits w = true) :
    decide (w ∈ DIALPLAN_CTX) = false := by
  simp only [decide_eq_false_iff_not]
  intro hmem
  simp only [DIALPLAN_CTX, List.mem_cons, List.not_mem_nil, or_false] at hmem
  rcases hmem with rfl|rfl|rfl|rfl|rfl|rfl|rfl|rfl|rfl|rfl|rfl <;> revert h <;> decide

theorem star_nonempty {w : Str} (h : startsW (s2l "*") w = true) :
    w.isEmpty = false := by
  cases w with
  | nil => simp [s2l, startsW, String.data] at h
  | cons c rest => rfl

theorem dropOne_digits_len {w : Str} (h : isDigits (w.drop 1) = true) :
    decide (2 ≤ w.length) = true := by
  have hne := digits_nonempty h
  cases w with
  | nil => simp at hne
  | cons c rest =>
    cases rest with
    | nil => simp [List.isEmpty] at hne
    | cons d tail => simp

/-! ## Claim C4: the meaningful-number predicate -/

/-- Claim C4 as stated is refuted at the input `" 123"` (leading space):
the source strips whitespace before testing, so `_meaningful` accepts it,
while the claimed characterization (which never mentions stripping)
rejects it. -/
theorem meaningful_claim_counterexample :
    _meaningful (s2l " 123") = true ∧ claimMeaningful (s2l " 123") = false := by
  constructor
  · rfl
  · rfl

/-- Claim C4, amended: the meaningful-number predicate agrees with the
spec's characterization applied to the whitespace-stripped value (with
non-emptiness checked on the raw value); in particular `*43` is meaningful
and a bare `s` is not. -/
theorem meaningful_matches_spec_after_strip :
    (∀ v : Str, _meaningful v = (!v.isEmpty && claimMeaningful (strip v))) ∧
    _meaningful (s2l "*43") = true ∧ _meaningful (s2l "s") = false := by
  refine ⟨fun v => ?_, rfl, rfl⟩
  unfold _meaningful claimMeaningful
  by_cases hv : v.isEmpty
  · simp [hv]
  · simp only [hv, Bool.not_false, Bool.true_and, if_false]
    generalize strip v = w
    by_cases hC : isDigits (w.drop 1) = true
    · by_cases hA : startsW (s2l "*") w = true
      · have hB := dropOne_digits_len hC
        have hcond : (startsW (s2l "*") w && decide (2 ≤ w.length) &&
            isDigits (w.drop 1)) = true := by rw [hA, hB, hC]; rfl
        rw [hcond]
        simp only [if_true]
        rw [star_nonempty hA]
        simp only [Bool.not_false, Bool.true_and]
        rw [hA, hC]
        simp
      · simp only [Bool.not_eq_true] at hA
        simp only [hA, Bool.false_and, Bool.and_false, if_false, Bool.false_or]
        by_cases hD : isDigits w = true
        · have hne := digits_nonempty hD
          have hctx := digits_not_in_ctx hD
          rw [lowerS_of_digits hD]
          simp only [hD, hne, hctx, Bool.not_false, Bool.true_and]
          by_cases hF : w.length ≤ 2
          · simp [hF, Nat.not_lt_of_le hF]
          · simp only [decide_eq_true_eq, Nat.not_le] at *
            simp only [decide_eq_false (by omega : ¬w.length ≤ 2), Bool.or_false,
              if_false, decide_eq_true (by omega : 2 < w.length), Bool.true_and]
            by_cases hG : (decide (w.length = 4) && startsW (s2l "5") w) = true
            · simp [hG]
            · simp only [Bool.not_eq_true] at hG
              simp [hG]
        · simp only [Bool.not_eq_true] at hD
          simp [hD]
    · simp only [Bool.not_eq_true] at hC
      simp only [hC, Bool.and_false, if_false]
      by_cases hD : isDigits w = true
      · have hne := digits_nonempty hD
        have hctx := digits_not_in_ctx hD
        have hstar := digits_not_star hD
        rw [lowerS_of_digits hD]
        simp only [hD, hne, hctx, hstar, Bool.not_false, Bool.true_and,
          Bool.false_and, Bool.and_false, Bool.false_or, if_false]
        by_cases hF : w.length ≤ 2
        · simp [hF, Nat.not_lt_of_le hF]
        · simp only [Nat.not_le] at hF
          simp only [decide_eq_false (by omega : ¬w.length ≤ 2), Bool.or_false,
            if_false, decide_eq_true (by omega : 2 < w.length), Bool.true_and]
          by_cases hG : (decide (w.length = 4) && startsW (s2l "5") w) = true
          · simp [hG]
          · simp only [Bool.not_eq_true] at hG
            simp [hG]
      · simp only [Bool.not_eq_true] at hD
        simp [hD, hC]


/-! ## Claims C5 and C6 -/

theorem send_crm_eq_compose {now : Nat} {ext : Str} {ci : CallInfo}
    {hch cause q0 : Str} {active : List (Str × CallInfo)} {pl : Payload}
    (h : _send_crm_data now ext ci hch cause q0 active = some pl) :
    crmCompose now ext ci cause q0 = some pl := by
  unfold _send_crm_data at h
  split at h
  split at h
  · exact h
  · exact absurd h (by simp)

theorem crmCompose_call_status {now : Nat} {ext : Str} {ci : CallInfo} {cause : Str}
    {q0 : Str} {pl : Payload} (h : crmCompose now ext ci cause q0 = some pl) :
    pl.call_status = crmFinalStatus ci cause := by
  unfold crmCompose at h
  split at h
  · exact absurd h (by simp)
  · dsimp only at h
    split at h
    · exact absurd h (by simp)
    · injection h with he
      rw [← he]
      rfl

/-- Claim C5: the cause-to-status table, the dial-status overrides applied
second, and the `queue_answered` override to `completed` during payload
composition. -/
theorem cause_status_mapping :
    (map_cause_to_status (s2l "16") [] = s2l "completed" ∧
     map_cause_to_status (s2l "17") [] = s2l "busy" ∧
     map_cause_to_status (s2l "18") [] = s2l "noanswer" ∧
     map_cause_to_status (s2l "19") [] = s2l "noanswer" ∧
     map_cause_to_status (s2l "127") [] = s2l "noanswer" ∧
     map_cause_to_status (s2l "20") [] = s2l "switched_off" ∧
     map_cause_to_status (s2l "21") [] = s2l "failed" ∧
     map_cause_to_status (s2l "31") [] = s2l "failed" ∧
     map_cause_to_status (s2l "28") [] = s2l "invalid_number" ∧
     map_cause_to_status (s2l "34") [] = s2l "invalid_number" ∧
     map_cause_to_status (s2l "0") [] = s2l "busy") ∧
    (∀ c : Str,
      c ∉ [s2l "16", s2l "17", s2l "18", s2l "19", s2l "20", s2l "21",
           s2l "28", s2l "31", s2l "34", s2l "127", s2l "0"] →
      map_cause_to_status c [] = s2l "failed") ∧
    map_cause_to_status (s2l "16") (s2l "ANSWER") = s2l "completed" ∧
    (∀ c : Str,
      map_cause_to_status c (s2l "BUSY") = s2l "busy" ∧
      map_cause_to_status c (s2l "NOANSWER") = s2l "noanswer" ∧
      map_cause_to_status c (s2l "CANCEL") = s2l "noanswer" ∧
      map_cause_to_status c (s2l "CONGESTION") = s2l "failed" ∧
      map_cause_to_status c (s2l "CHANUNAVAIL") = s2l "failed") ∧
    (∀ (now : Nat) (ext : Str) (ci : CallInfo) (hch cause q0 : Str)
       (active : List (Str × CallInfo)) (pl : Payload),
      _send_crm_data now ext ci hch cause q0 active = some pl →
      gb ci.queue_answered = true →
      (map_cause_to_status cause (g ci.dialstatus) = s2l "noanswer" ∨
       map_cause_to_status cause (g ci.dialstatus) = s2l "failed") →
      pl.call_status = s2l "completed") := by
  refine ⟨by decide, ?_, by decide, fun c => ⟨rfl, rfl, rfl, rfl, rfl⟩, ?_⟩
  · intro c hc
    simp only [List.mem_cons, List.not_mem_nil, or_false, not_or] at hc
    obtain ⟨h1, h2, h3, h4, h5, h6, h7, h8, h9, h10, h11⟩ := hc
    simp [map_cause_to_status, h1, h2, h3, h4, h5, h6, h7, h8, h9, h10, h11]
  · intro now ext ci hch cause q0 active pl h hqa hst
    rw [crmCompose_call_status (send_crm_eq_compose h)]
    unfold crmFinalStatus
    rcases hst with hst | hst <;> simp [hst, hqa]

/-- Witness for claim C5 at concrete inputs: an unlisted cause maps to
`failed`, and a concrete answered queue call with cause `18` is composed
with status `completed`. -/
theorem cause_status_mapping_witness :
    map_cause_to_status (s2l "99") [] = s2l "failed" ∧
    _send_crm_data 100 (s2l "200") c5ci (s2l "X") (s2l "18") [] [] =
      some (crmPayload 100 (s2l "200") c5ci (s2l "18") []) ∧
    (crmPayload 100 (s2l "200") c5ci (s2l "18") []).call_status =
      s2l "completed" := by
  refine ⟨cause_status_mapping.2.1 (s2l "99") (by decide), by decide, ?_⟩
  exact cause_status_mapping.2.2.2.2 100 (s2l "200") c5ci (s2l "X") (s2l "18") []
    [] _ (by decide) (by decide) (Or.inl (by decide))

/-- Claim C6: an `ExtensionStatus` event (any status code, `Idle`
included) only rewrites the extensions cache at the event's `Exten`;
`active_calls` — and everything else — is untouched, and no CRM hand-off
occurs. -/
theorem extension_status_frame (now : Nat) (s : St) (exten status : Option Str) :
    (applyEv now s (Ev.ExtensionStatus exten status)).1.active_calls =
      s.active_calls ∧
    (applyEv now s (Ev.ExtensionStatus exten status)).2 = [] ∧
    (applyEv now s (Ev.ExtensionStatus exten status)).1.ch2ext = s.ch2ext ∧
    (applyEv now s (Ev.ExtensionStatus exten status)).1.ch_callerid = s.ch_callerid ∧
    (applyEv now s (Ev.ExtensionStatus exten status)).1.destch2ext = s.destch2ext ∧
    (applyEv now s (Ev.ExtensionStatus exten status)).1.queues = s.queues ∧
    (applyEv now s (Ev.ExtensionStatus exten status)).1.queue_members =
      s.queue_members ∧
    (applyEv now s (Ev.ExtensionStatus exten status)).1.queue_entries =
      s.queue_entries ∧
    (applyEv now s (Ev.ExtensionStatus exten status)).1.dynamic_members =
      s.dynamic_members ∧
    (applyEv now s (Ev.ExtensionStatus exten status)).1.ch2uniqueid =
      s.ch2uniqueid ∧
    (applyEv now s (Ev.ExtensionStatus exten status)).1.ch2linkedid =
      s.ch2linkedid ∧
    (applyEv now s (Ev.ExtensionStatus exten status)).1.linkedid2channels =
      s.linkedid2channels ∧
    (applyEv now s (Ev.ExtensionStatus exten status)).1.linkedid_crm_sent =
      s.linkedid_crm_sent ∧
    (∀ k : Str, k ≠ g exten →
      alookup (applyEv now s (Ev.ExtensionStatus exten status)).1.extensions k =
        alookup s.extensions k) := by
  unfold applyEv _ev_ExtensionStatus
  by_cases h : (g exten).isEmpty
  · simp [h]
  · simp [h]
    intro k hk
    exact alookup_aset_ne _ _ _ _ (Ne.symm hk)



theorem hangupQueueCleanup_frame (s : St) (ch u : Str) :
    (hangupQueueCleanup s ch u).2.ch2linkedid = s.ch2linkedid ∧
    (hangupQueueCleanup s ch u).2.ch2ext = s.ch2ext ∧
    (hangupQueueCleanup s ch u).2.destch2ext = s.destch2ext ∧
    (hangupQueueCleanup s ch u).2.linkedid2channels = s.linkedid2channels ∧
    (hangupQueueCleanup s ch u).2.linkedid_crm_sent = s.linkedid_crm_sent ∧
    (hangupQueueCleanup s ch u).2.active_calls = s.active_calls := by
  unfold hangupQueueCleanup
  split <;> rename_i heq
  · split at heq
    · split at heq <;> cases heq <;> exact ⟨rfl, rfl, rfl, rfl, rfl, rfl⟩
    · cases heq
      exact ⟨rfl, rfl, rfl, rfl, rfl, rfl⟩

theorem hangupCallerPath_no_emit (s : St) (ch ce ext l u : Str) :
    (hangupCallerPath s ch ce ext l u false).2 = [] := by
  unfold hangupCallerPath
  split
  · rfl
  · split
    · rfl
    · rfl

theorem hangupExtPath_no_emit (s : St) (ch ext l u : Str) :
    (hangupExtPath s ch ext l u false).2 = [] := by
  unfold hangupExtPath
  split
  · rfl
  · split
    · rfl
    · split
      · rfl
      · rfl

theorem mem_sadd_of_mem {l : List Str} {c : Str} (k : Str) (h : c ∈ l) :
    c ∈ sadd l k := by
  unfold sadd
  split
  · exact h
  · exact List.mem_append_left _ h

theorem hangupLinkedid_final {s : St} {ch linkedid : Str} {isF : Bool} {s2 : St}
    (h : hangupLinkedid s ch linkedid = some (isF, s2)) (hf : isF = true) :
    linkedid ≠ [] ∧
    ∀ c ∈ (alookup s.linkedid2channels linkedid).getD [], c ≠ ch →
      ¬(amem s.ch2ext c = true ∧ isTrunkChannel c = false) := by
  unfold hangupLinkedid at h
  split at h <;> rename_i hemp
  · injection h with h1
    injection h1 with h2 h3
    rw [hf] at h2
    simp at h2
  · constructor
    · intro hl
      rw [hl] at hemp
      simp [List.isEmpty] at hemp
    · split at h
      · exact absurd h (by simp)
      · rename_i grp hgrp
        injection h with h1
        injection h1 with h2 h3
        rw [hf] at h2
        have hact : grp.filter (fun c =>
            c ≠ ch && amem s.ch2ext c && !startsW (s2l "PJSIP/asterisk-") c) = [] :=
          List.isEmpty_iff.mp h2
        rw [List.filter_eq_nil_iff] at hact
        intro c hc hne hand
        obtain ⟨hliv, htr⟩ := hand
        rw [hgrp] at hc
        simp only [Option.getD_some] at hc
        have hfail := hact c hc
        have hast : startsW (s2l "PJSIP/asterisk-") c = false := by
          unfold isTrunkChannel at htr
          simp only [Bool.or_eq_false_iff] at htr
          exact htr.1
        apply hfail
        simp [hne, hliv, hast]

/-- Claim C2: a Hangup hands a CRM record off only when the final-hangup
conditions hold — the channel has a linkedid from the event or prior
tracking, the channel is not a trunk/system channel, and no other live
non-trunk channel remains in that linkedid's set.  In particular nothing
is handed off when the event carries no linkedid and the channel was never
tracked under one, and nothing is handed off for a trunk/system channel. -/
theorem hangup_emits_only_on_final (s : St)
    (channel uniqueid0 cause0 linkedid0 : Option Str) :
    ((_ev_Hangup s channel uniqueid0 cause0 linkedid0).2 ≠ [] →
      orS (g linkedid0) (g (alookup s.ch2linkedid (g channel))) ≠ [] ∧
      isTrunkChannel (g channel) = false ∧
      (∀ c ∈ (alookup s.linkedid2channels
          (orS (g linkedid0) (g (alookup s.ch2linkedid (g channel))))).getD [],
        c ≠ g channel →
        ¬(amem s.ch2ext c = true ∧ isTrunkChannel c = false))) ∧
    ((g linkedid0 = [] ∧ alookup s.ch2linkedid (g channel) = none) →
      (_ev_Hangup s channel uniqueid0 cause0 linkedid0).2 = []) ∧
    (isTrunkChannel (g channel) = true →
      (_ev_Hangup s channel uniqueid0 cause0 linkedid0).2 = []) := by
  unfold _ev_Hangup
  by_cases hch : (g channel).isEmpty
  · simp [hch]
  · simp only [hch, Bool.false_eq_true, if_false]
    try dsimp only
    rcases hq : hangupQueueCleanup s (g channel)
        (orS (g uniqueid0) (g (alookup s.ch2uniqueid (g channel)))) with ⟨qn, s1⟩
    have hfr := hangupQueueCleanup_frame s (g channel)
        (orS (g uniqueid0) (g (alookup s.ch2uniqueid (g channel))))
    rw [hq] at hfr
    obtain ⟨f1, f2, f3, f4, f5, f6⟩ := hfr
    dsimp only at f1 f2 f3 f4 f5 f6 ⊢
    rw [f1]
    split <;> rename_i hL
    · simp
    · rename_i isF0 s3
      try dsimp only
      by_cases hfin : (if isTrunkChannel (g channel) then false else isF0) = true
      · -- final: trunk must be false and isF0 true
        have htr : isTrunkChannel (g channel) = false := by
          by_cases ht : isTrunkChannel (g channel)
          · rw [ht] at hfin
            simp at hfin
          · simpa using ht
        have hF0 : isF0 = true := by
          rw [htr] at hfin
          simpa using hfin
        -- the linkedid resolved over the auto-added state
        have hcore := hangupLinkedid_final hL hF0
        refine ⟨fun _ => ⟨hcore.1, htr, ?_⟩, fun hpre => ?_, fun ht => ?_⟩
        · intro c hc hne hand
          refine hcore.2 c ?_ hne ?_
          · split
            · rename_i hcond
              simp only [Bool.and_eq_true, Bool.not_eq_true', List.isEmpty_eq_true] at hcond
              dsimp only
              have horS : orS (g linkedid0) (g (alookup s.ch2linkedid (g channel))) =
                  g linkedid0 := by
                unfold orS
                rw [hcond.1]
                simp
              rw [horS] at hc ⊢
              unfold groupAdd
              rw [f4, alookup_aset_self]
              simp only [Option.getD_some]
              exact mem_sadd_of_mem _ hc
            · try dsimp only
              rw [f4]
              exact hc
          · constructor
            · split
              · try dsimp only
                rw [f2]
                exact hand.1
              · try dsimp only
                rw [f2]
                exact hand.1
            · exact hand.2
        · -- no linkedid anywhere: isF0 would be false
          exfalso
          have : orS (g linkedid0) (g (alookup s.ch2linkedid (g channel))) = [] := by
            unfold orS
            simp only [g] at hpre ⊢
            simp [hpre.1, hpre.2]
          rw [this] at hL
          unfold hangupLinkedid at hL
          simp at hL
          rw [hF0] at hL
          simp at hL
        · rw [ht] at hfin
          simp at hfin
      · -- not final: both emission paths are silent
        simp only [Bool.not_eq_true] at hfin
        rw [hfin]
        refine ⟨fun hne => absurd ?_ hne, fun _ => ?_, fun _ => ?_⟩ <;>
        · try dsimp only
          split <;> split <;>
            simp [hangupCallerPath_no_emit, hangupExtPath_no_emit]

/-- Closed discharge of `hangup_emits_only_on_final`: the emitting branch at
`c2st`, the no-linkedid branch at `initSt`, and the trunk branch. -/
theorem hangup_emits_only_on_final_witness :
    (orS (g (some c2L)) (g (alookup c2st.ch2linkedid (g (some c2ch)))) ≠ [] ∧
      isTrunkChannel (g (some c2ch)) = false ∧
      (∀ c ∈ (alookup c2st.linkedid2channels
          (orS (g (some c2L)) (g (alookup c2st.ch2linkedid (g (some c2ch)))))).getD [],
        c ≠ g (some c2ch) →
        ¬(amem c2st.ch2ext c = true ∧ isTrunkChannel c = false))) ∧
    (_ev_Hangup initSt (some c2ch) none none none).2 = [] ∧
    (_ev_Hangup initSt (some (s2l "PJSIP/asterisk-000a")) none none (some c2L)).2 = [] :=
  ⟨(hangup_emits_only_on_final c2st (some c2ch) (some c2L) none (some c2L)).1
      (by decide),
    (hangup_emits_only_on_final initSt (some c2ch) none none none).2.1 (by decide),
    (hangup_emits_only_on_final initSt (some (s2l "PJSIP/asterisk-000a")) none none
        (some c2L)).2.2 (by decide)⟩


theorem mem_sadd_self (l : List Str) (k : Str) : k ∈ sadd l k := by
  unfold sadd
  split
  · assumption
  · simp

/-- Behaviour of a single `hangupEmit` call (the shared CRM emission gate):
at most one hand-off, the hand-off carries the supplied linkedid and
uniqueid, and with a fully populated key the gate aborts when the marker is
present and otherwise inserts it. -/
theorem hangupEmit_spec {crmIn : List Str} {who l u : Str} {crmOut : List Str}
    {hs : List Handoff} (hE : hangupEmit crmIn who l u = (crmOut, hs)) :
    hs.length ≤ 1 ∧
    (∀ h ∈ hs, h.linkedid = l ∧ h.uniqueid = u) ∧
    (l ≠ [] → u ≠ [] →
      (crmKey l u ∈ crmIn → hs = []) ∧
      (hs ≠ [] → crmKey l u ∉ crmIn ∧ crmKey l u ∈ crmOut)) := by
  unfold hangupEmit at hE
  by_cases hl : l.isEmpty
  · simp [hl] at hE
    obtain ⟨h1, h2⟩ := hE
    subst h1; subst h2
    refine ⟨by simp, ?_, ?_⟩
    · intro h hm
      simp at hm
      rw [hm]
      exact ⟨rfl, rfl⟩
    · intro hne
      exact absurd (List.isEmpty_eq_true.mp hl) hne
  · by_cases hu : u.isEmpty
    · simp [hl, hu] at hE
      obtain ⟨h1, h2⟩ := hE
      subst h1; subst h2
      refine ⟨by simp, ?_, ?_⟩
      · intro h hm
        simp at hm
        rw [hm]
        exact ⟨rfl, rfl⟩
      · intro _ hne
        exact absurd (List.isEmpty_eq_true.mp hu) hne
    · simp [hl, hu] at hE
      by_cases hk : crmKey l u ∈ crmIn
      · rw [if_pos hk] at hE
        injection hE with h1 h2
        subst h1; subst h2
        exact ⟨by simp, by simp, fun _ _ => ⟨fun _ => rfl, fun hne => absurd rfl hne⟩⟩
      · rw [if_neg hk] at hE
        injection hE with h1 h2
        subst h1; subst h2
        refine ⟨by simp, ?_, ?_⟩
        · intro h hm
          simp at hm
          rw [hm]
          exact ⟨rfl, rfl⟩
        · intro _ _
          exact ⟨fun hmem => absurd hmem hk,
            fun _ => ⟨hk, mem_sadd_self _ _⟩⟩

/-- `hangupEmit_spec` restated on the projections of the call. -/
theorem hangupEmit_parts (crmIn : List Str) (who l u : Str) :
    (hangupEmit crmIn who l u).2.length ≤ 1 ∧
    (∀ h ∈ (hangupEmit crmIn who l u).2, h.linkedid = l ∧ h.uniqueid = u) ∧
    (l ≠ [] → u ≠ [] →
      (crmKey l u ∈ crmIn → (hangupEmit crmIn who l u).2 = []) ∧
      ((hangupEmit crmIn who l u).2 ≠ [] →
        crmKey l u ∉ crmIn ∧ crmKey l u ∈ (hangupEmit crmIn who l u).1)) :=
  hangupEmit_spec rfl

/-- CRM-emission behaviour of the caller-destination hangup path: at most
one hand-off, carrying the path's linkedid and uniqueid, and with a fully
populated key any hand-off leaves the marker in the resulting state. -/
theorem hangupCallerPath_spec {s : St} {ch ce ext l u : Str} {fin : Bool}
    {t : St} {hs : List Handoff}
    (hP : hangupCallerPath s ch ce ext l u fin = (t, hs)) :
    hs.length ≤ 1 ∧
    (∀ h ∈ hs, h.linkedid = l ∧ h.uniqueid = u) ∧
    (l ≠ [] → u ≠ [] → hs ≠ [] →
      crmKey l u ∈ t.linkedid_crm_sent) := by
  unfold hangupCallerPath at hP
  split at hP
  · injection hP with h1 h2
    subst h2
    simp
  · split at hP
    · cases fin
      · try dsimp only at hP
        injection hP with h1 h2
        subst h2
        simp
      · simp only [eq_self_iff_true, if_true] at hP
        injection hP with h1 h2
        subst h1; subst h2
        refine ⟨(hangupEmit_parts _ _ _ _).1, (hangupEmit_parts _ _ _ _).2.1,
          fun hl hu hne => ?_⟩
        exact (((hangupEmit_parts _ _ _ _).2.2 hl hu).2 hne).2
    · injection hP with h1 h2
      subst h2
      simp

/-- CRM-emission behaviour of the extension hangup path: at most one
hand-off, carrying the path's linkedid and uniqueid, and with a fully
populated key a hand-off can occur only when the marker was absent from
the entry state. -/
theorem hangupExtPath_spec {s : St} {ch ext l u : Str} {fin : Bool}
    {t : St} {hs : List Handoff}
    (hP : hangupExtPath s ch ext l u fin = (t, hs)) :
    hs.length ≤ 1 ∧
    (∀ h ∈ hs, h.linkedid = l ∧ h.uniqueid = u) ∧
    (l ≠ [] → u ≠ [] → hs ≠ [] →
      crmKey l u ∉ s.linkedid_crm_sent) := by
  unfold hangupExtPath at hP
  split at hP
  · injection hP with h1 h2
    subst h2
    simp
  · split at hP
    · cases fin
      · try dsimp only at hP
        injection hP with h1 h2
        subst h2
        simp
      · simp only [eq_self_iff_true, if_true] at hP
        injection hP with h1 h2
        subst h1; subst h2
        exact ⟨(hangupEmit_parts _ _ _ _).1, (hangupEmit_parts _ _ _ _).2.1,
          fun hl hu hne => (((hangupEmit_parts _ _ _ _).2.2 hl hu).2 hne).1⟩
    · split at hP
      · injection hP with h1 h2
        subst h2
        simp
      · cases fin
        · try dsimp only at hP
          injection hP with h1 h2
          subst h2
          simp
        · simp only [eq_self_iff_true, if_true] at hP
          injection hP with h1 h2
          subst h1; subst h2
          exact ⟨(hangupEmit_parts _ _ _ _).1, (hangupEmit_parts _ _ _ _).2.1,
            fun hl hu hne => (((hangupEmit_parts _ _ _ _).2.2 hl hu).2 hne).1⟩

/-- Combining the two hangup emission paths: with per-path caps, field
discipline, and mutual exclusion on a populated key, at most one matching
hand-off results. -/
theorem count_combine (hs1 hs2 : List Handoff) (l u L U : Str)
    (len1 : hs1.length ≤ 1) (len2 : hs2.length ≤ 1)
    (f1 : ∀ h ∈ hs1, h.linkedid = l ∧ h.uniqueid = u)
    (f2 : ∀ h ∈ hs2, h.linkedid = l ∧ h.uniqueid = u)
    (hexcl : l = L → u = U → hs1 = [] ∨ hs2 = []) :
    ((hs1 ++ hs2).countP
      (fun h => decide (h.linkedid = L) && decide (h.uniqueid = U))) ≤ 1 := by
  by_cases hm : l = L ∧ u = U
  · rcases hexcl hm.1 hm.2 with h | h
    · subst h
      simp only [List.nil_append]
      calc (hs2.countP _) ≤ hs2.length := List.countP_le_length _
        _ ≤ 1 := len2
    · subst h
      simp only [List.append_nil]
      calc (hs1.countP _) ≤ hs1.length := List.countP_le_length _
        _ ≤ 1 := len1
  · have hz : ((hs1 ++ hs2).countP
        (fun h => decide (h.linkedid = L) && decide (h.uniqueid = U))) = 0 := by
      rw [List.countP_eq_zero]
      intro h hmem
      rcases List.mem_append.mp hmem with hm1 | hm2
      · obtain ⟨e1, e2⟩ := f1 h hm1
        simp only [e1, e2, Bool.and_eq_true, decide_eq_true_eq]
        intro hc
        exact hm ⟨hc.1, hc.2⟩
      · obtain ⟨e1, e2⟩ := f2 h hm2
        simp only [e1, e2, Bool.and_eq_true, decide_eq_true_eq]
        intro hc
        exact hm ⟨hc.1, hc.2⟩
    rw [hz]
    exact Nat.zero_le 1

/-- The two emission paths of one `_ev_Hangup`, in the exact shape they take
inside the handler: the threading of `linkedid_crm_sent` from the caller
path into the extension path caps matching hand-offs at one. -/
theorem hangup_paths_count (sa : St) (ch ce ext l u L U : Str) (fin c1 c2 : Bool)
    (hl : L ≠ []) (hu : U ≠ []) :
    List.countP (fun h => decide (h.linkedid = L) && decide (h.uniqueid = U))
      ((if c1 = true then hangupCallerPath sa ch ce ext l u fin
          else (sa, [])).2 ++
        (if c2 = true then
            hangupExtPath
              (if c1 = true then hangupCallerPath sa ch ce ext l u fin
                else (sa, [])).1 ch ext l u fin
          else
            ((if c1 = true then hangupCallerPath sa ch ce ext l u fin
                else (sa, [])).1, [])).2) ≤ 1 := by
  rcases hc1 : (if c1 = true then hangupCallerPath sa ch ce ext l u fin
      else (sa, [])) with ⟨sb, hs1⟩
  try dsimp only
  rcases hc2 : (if c2 = true then hangupExtPath sb ch ext l u fin
      else (sb, [])) with ⟨sc, hs2⟩
  try dsimp only
  have hfact1 : hs1.length ≤ 1 ∧
      (∀ h ∈ hs1, h.linkedid = l ∧ h.uniqueid = u) ∧
      (l ≠ [] → u ≠ [] → hs1 ≠ [] → crmKey l u ∈ sb.linkedid_crm_sent) := by
    by_cases h1 : c1 = true
    · rw [if_pos h1] at hc1
      exact hangupCallerPath_spec hc1
    · rw [if_neg h1] at hc1
      injection hc1 with e1 e2
      subst e2
      exact ⟨by simp, by simp, fun _ _ hne => absurd rfl hne⟩
  have hfact2 : hs2.length ≤ 1 ∧
      (∀ h ∈ hs2, h.linkedid = l ∧ h.uniqueid = u) ∧
      (l ≠ [] → u ≠ [] → hs2 ≠ [] → crmKey l u ∉ sb.linkedid_crm_sent) := by
    by_cases h2 : c2 = true
    · rw [if_pos h2] at hc2
      exact hangupExtPath_spec hc2
    · rw [if_neg h2] at hc2
      injection hc2 with e1 e2
      subst e2
      exact ⟨by simp, by simp, fun _ _ hne => absurd rfl hne⟩
  refine count_combine hs1 hs2 l u L U hfact1.1 hfact2.1 hfact1.2.1 hfact2.2.1
    (fun hLe hUe => ?_)
  by_cases h1 : hs1 = []
  · exact Or.inl h1
  · right
    by_cases h2 : hs2 = []
    · exact h2
    · exfalso
      have hlne : l ≠ [] := by rw [hLe]; exact hl
      have hune : u ≠ [] := by rw [hUe]; exact hu
      exact (hfact2.2.2 hlne hune h2) (hfact1.2.2 hlne hune h1)

/-- Within a single `Hangup` event, at most one hand-off carries any given
fully populated (linkedid, uniqueid) key. -/
theorem hangup_handoffs_at_most_once (s : St)
    (channel uniqueid0 cause0 linkedid0 : Option Str) (L U : Str)
    (hl : L ≠ []) (hu : U ≠ []) :
    ((_ev_Hangup s channel uniqueid0 cause0 linkedid0).2.countP
      (fun h => decide (h.linkedid = L) && decide (h.uniqueid = U))) ≤ 1 := by
  unfold _ev_Hangup
  by_cases hch : (g channel).isEmpty
  · simp [hch]
  · simp only [hch, Bool.false_eq_true, if_false]
    try dsimp only
    rcases hqc : hangupQueueCleanup s (g channel)
        (orS (g uniqueid0) (g (alookup s.ch2uniqueid (g channel)))) with ⟨qn, s1⟩
    try dsimp only
    split <;> rename_i hL
    · simp
    · rename_i isF0 s3
      try dsimp only
      exact hangup_paths_count _ _ _ _ _ _ L U _ _ _ hl hu

/-- Claim C1 is refuted as stated: over the event sequence `traceReuse` the
pair (L1, U1) is handed off to the CRM publisher twice, because the final
hangup of the first call purges every `L1:`-prefixed marker from `crm_sent`
before a later call reusing the same identifiers is processed. -/
theorem crm_at_most_once_counterexample :
    ((runTrace traceReuse).2.countP
      (fun h => decide (h.linkedid = s2l "L1") &&
        decide (h.uniqueid = s2l "U1"))) = 2 := by
  decide

/-- Claim C1 (amended): within the processing of any single event, at most
one CRM record carrying a given fully populated (linkedid, uniqueid) key is
handed off; and the shared emission gate of all hangup code paths checks
the `crm_sent` set for the key "linkedid:uniqueid", aborting when it is
present and inserting it before handing off otherwise.  The at-most-once
guarantee does not extend across events, because a final hangup purges the
linkedid's markers. -/
theorem crm_at_most_once_amended (now : Nat) (s : St) (e : Ev) (L U : Str)
    (hl : L ≠ []) (hu : U ≠ []) :
    ((applyEv now s e).2.countP
      (fun h => decide (h.linkedid = L) && decide (h.uniqueid = U))) ≤ 1 ∧
    (∀ crm who, (crmKey L U ∈ crm → (hangupEmit crm who L U).2 = []) ∧
      (crmKey L U ∉ crm →
        (hangupEmit crm who L U).2 = [⟨who, L, U⟩] ∧
        crmKey L U ∈ (hangupEmit crm who L U).1)) := by
  constructor
  · cases e
    case Hangup a b c d => exact hangup_handoffs_at_most_once s a b c d L U hl hu
    all_goals simp [applyEv]
  · intro crm who
    have hcond : (!L.isEmpty && !U.isEmpty) = true := by
      cases L with
      | nil => exact absurd rfl hl
      | cons a as =>
        cases U with
        | nil => exact absurd rfl hu
        | cons b bs => rfl
    constructor
    · intro hk
      unfold hangupEmit
      rw [hcond]
      simp only [eq_self_iff_true, if_true]
      rw [if_pos hk]
    · intro hk
      constructor
      · unfold hangupEmit
        rw [hcond]
        simp only [eq_self_iff_true, if_true]
        rw [if_neg hk]
      · unfold hangupEmit
        rw [hcond]
        simp only [eq_self_iff_true, if_true]
        rw [if_neg hk]
        exact mem_sadd_self _ _

/-- Closed discharge of `crm_at_most_once_amended`: the emitting hangup at
`c2st`, and the gate behaviour on the empty marker set. -/
theorem crm_at_most_once_amended_witness :
    ((applyEv 1 c2st (Ev.Hangup (some c2ch) (some c2L) none (some c2L))).2.countP
      (fun h => decide (h.linkedid = c2L) && decide (h.uniqueid = c2L))) ≤ 1 ∧
    ((hangupEmit [] c2L c2L c2L).2 = [⟨c2L, c2L, c2L⟩] ∧
      crmKey c2L c2L ∈ (hangupEmit [] c2L c2L c2L).1) :=
  ⟨(crm_at_most_once_amended 1 c2st
      (Ev.Hangup (some c2ch) (some c2L) none (some c2L)) c2L c2L
      (by decide) (by decide)).1,
    ((crm_at_most_once_amended 1 c2st
      (Ev.Hangup (some c2ch) (some c2L) none (some c2L)) c2L c2L
      (by decide) (by decide)).2 [] c2L).2 (by decide)⟩


theorem mem_sadd_elim {l : List Str} {k c : Str} (h : c ∈ sadd l k) :
    c ∈ l ∨ c = k := by
  unfold sadd at h
  split at h
  · exact Or.inl h
  · rcases List.mem_append.mp h with h1 | h2
    · exact Or.inl h1
    · right
      simpa using h2

theorem alookup_groupAdd_none {m : List (Str × List Str)} {k c L : Str}
    (h : alookup (groupAdd m k c) L = none) : alookup m L = none := by
  unfold groupAdd at h
  by_cases he : L = k
  · subst he
    rw [alookup_aset_self] at h
    exact absurd h (by simp)
  · rw [alookup_aset_ne _ _ _ _ (fun e => he e.symm)] at h
    exact h

/-- Marker insertions of one `hangupEmit` call: the output marker set holds
only the input markers and possibly the call's own key. -/
theorem hangupEmit_crm_parts (crmIn : List Str) (who l u : Str) :
    ∀ k ∈ (hangupEmit crmIn who l u).1, k ∈ crmIn ∨ k = crmKey l u := by
  unfold hangupEmit
  split
  · try dsimp only
    split
    · intro k hk
      exact Or.inl hk
    · intro k hk
      try dsimp only at hk
      exact mem_sadd_elim hk
  · intro k hk
    exact Or.inl hk

/-- The caller-destination hangup path leaves the linkedid groups untouched
and adds at most its own key to the marker set. -/
theorem hangupCallerPath_crm {s : St} {ch ce ext l u : Str} {fin : Bool}
    {t : St} {hs : List Handoff}
    (hP : hangupCallerPath s ch ce ext l u fin = (t, hs)) :
    t.linkedid2channels = s.linkedid2channels ∧
    (∀ k ∈ t.linkedid_crm_sent, k ∈ s.linkedid_crm_sent ∨ k = crmKey l u) := by
  unfold hangupCallerPath at hP
  split at hP
  · injection hP with h1 h2
    subst h1
    exact ⟨rfl, fun k hk => Or.inl hk⟩
  · split at hP
    · cases fin
      · try dsimp only at hP
        injection hP with h1 h2
        subst h1
        exact ⟨rfl, fun k hk => Or.inl hk⟩
      · simp only [eq_self_iff_true, if_true] at hP
        injection hP with h1 h2
        subst h1
        exact ⟨rfl, hangupEmit_crm_parts _ _ _ _⟩
    · injection hP with h1 h2
      subst h1
      exact ⟨rfl, fun k hk => Or.inl hk⟩

/-- The extension hangup path leaves the linkedid groups untouched and adds
at most its own key to the marker set. -/
theorem hangupExtPath_crm {s : St} {ch ext l u : Str} {fin : Bool}
    {t : St} {hs : List Handoff}
    (hP : hangupExtPath s ch ext l u fin = (t, hs)) :
    t.linkedid2channels = s.linkedid2channels ∧
    (∀ k ∈ t.linkedid_crm_sent, k ∈ s.linkedid_crm_sent ∨ k = crmKey l u) := by
  unfold hangupExtPath at hP
  split at hP
  · injection hP with h1 h2
    subst h1
    exact ⟨rfl, fun k hk => Or.inl hk⟩
  · split at hP
    · cases fin
      · try dsimp only at hP
        injection hP with h1 h2
        subst h1
        exact ⟨rfl, fun k hk => Or.inl hk⟩
      · simp only [eq_self_iff_true, if_true] at hP
        injection hP with h1 h2
        subst h1
        exact ⟨rfl, hangupEmit_crm_parts _ _ _ _⟩
    · split at hP
      · injection hP with h1 h2
        subst h1
        exact ⟨rfl, fun k hk => Or.inl hk⟩
      · cases fin
        · try dsimp only at hP
          injection hP with h1 h2
          subst h1
          exact ⟨rfl, fun k hk => Or.inl hk⟩
        · simp only [eq_self_iff_true, if_true] at hP
          injection hP with h1 h2
          subst h1
          exact ⟨rfl, hangupEmit_crm_parts _ _ _ _⟩

/-- `hangupDropChan` never touches the linkedid groups or the marker set. -/
theorem hangupDropChan_frame (s : St) (c : Str) :
    (hangupDropChan s c).linkedid2channels = s.linkedid2channels ∧
    (hangupDropChan s c).linkedid_crm_sent = s.linkedid_crm_sent := by
  unfold hangupDropChan
  try dsimp only
  split
  · split
    · exact ⟨rfl, rfl⟩
    · split
      · exact ⟨rfl, rfl⟩
      · exact ⟨rfl, rfl⟩
  · exact ⟨rfl, rfl⟩

theorem foldl_dropChan_frame (l : List Str) (s : St) :
    (l.foldl hangupDropChan s).linkedid2channels = s.linkedid2channels ∧
    (l.foldl hangupDropChan s).linkedid_crm_sent = s.linkedid_crm_sent := by
  induction l generalizing s with
  | nil => exact ⟨rfl, rfl⟩
  | cons c rest ih =>
    simp only [List.foldl_cons]
    obtain ⟨i1, i2⟩ := ih (hangupDropChan s c)
    obtain ⟨d1, d2⟩ := hangupDropChan_frame s c
    exact ⟨i1.trans d1, i2.trans d2⟩

/-- The trailing cleanup loops never touch the linkedid groups or the
marker set. -/
theorem hangupCleanup_crm_frame (s : St) (ch ext : Str) :
    (hangupCleanup s ch ext).linkedid2channels = s.linkedid2channels ∧
    (hangupCleanup s ch ext).linkedid_crm_sent = s.linkedid_crm_sent := by
  unfold hangupCleanup
  try dsimp only
  split
  · try dsimp only
    exact foldl_dropChan_frame _ _
  · exact ⟨rfl, rfl⟩

/-- When `hangupLinkedid` ends with the linkedid's group gone, it took the
purge branch: no surviving marker carries the `linkedid:` prefix. -/
theorem hangupLinkedid_purged {s : St} {ch l : Str} {isF : Bool} {t : St}
    (hl : l ≠ []) (hE : hangupLinkedid s ch l = some (isF, t))
    (hdel : alookup t.linkedid2channels l = none) :
    ∀ k ∈ t.linkedid_crm_sent, startsW (l ++ [':']) k = false := by
  unfold hangupLinkedid at hE
  rw [if_neg (by simpa using hl)] at hE
  split at hE
  · exact absurd hE (by simp)
  · rename_i grp hgrp
    try dsimp only at hE
    injection hE with hE0
    injection hE0 with h1 h2
    subst h2
    split at hdel
    · rename_i hempty
      intro k hk
      rw [if_pos hempty] at hk
      try dsimp only at hk
      rw [List.mem_filter] at hk
      simpa using hk.2
    · rename_i hempty
      try dsimp only at hdel
      rw [alookup_aset_self] at hdel
      exact absurd hdel (by simp)

/-- Marker behaviour of the tail of `_ev_Hangup` (both emission paths and
the trailing cleanup), in the exact shape the handler uses: linkedid groups
are untouched, and when every incoming marker avoids the `l:` prefix, any
surviving `l:`-prefixed marker is the event's own key. -/
theorem hangup_tail_crm (sa : St) (ch ce ext l u : Str) (fin c1 c2 : Bool) :
    (hangupCleanup
        (if c2 = true then
          hangupExtPath
            (if c1 = true then hangupCallerPath sa ch ce ext l u fin
              else (sa, [])).1 ch ext l u fin
        else ((if c1 = true then hangupCallerPath sa ch ce ext l u fin
              else (sa, [])).1, [])).1 ch ext).linkedid2channels =
      sa.linkedid2channels ∧
    ((∀ k ∈ sa.linkedid_crm_sent, startsW (l ++ [':']) k = false) →
      ∀ k ∈ (hangupCleanup
          (if c2 = true then
            hangupExtPath
              (if c1 = true then hangupCallerPath sa ch ce ext l u fin
                else (sa, [])).1 ch ext l u fin
          else ((if c1 = true then hangupCallerPath sa ch ce ext l u fin
                else (sa, [])).1, [])).1 ch ext).linkedid_crm_sent,
        startsW (l ++ [':']) k = true → k = crmKey l u) := by
  rcases hc1 : (if c1 = true then hangupCallerPath sa ch ce ext l u fin
      else (sa, [])) with ⟨sb, hs1⟩
  try dsimp only
  rcases hc2 : (if c2 = true then hangupExtPath sb ch ext l u fin
      else (sb, [])) with ⟨sc, hs2⟩
  try dsimp only
  have hsb : sb.linkedid2channels = sa.linkedid2channels ∧
      (∀ k ∈ sb.linkedid_crm_sent, k ∈ sa.linkedid_crm_sent ∨ k = crmKey l u) := by
    by_cases h1 : c1 = true
    · rw [if_pos h1] at hc1
      exact hangupCallerPath_crm hc1
    · rw [if_neg h1] at hc1
      injection hc1 with e1 e2
      subst e1
      exact ⟨rfl, fun k hk => Or.inl hk⟩
  have hsc : sc.linkedid2channels = sb.linkedid2channels ∧
      (∀ k ∈ sc.linkedid_crm_sent, k ∈ sb.linkedid_crm_sent ∨ k = crmKey l u) := by
    by_cases h2 : c2 = true
    · rw [if_pos h2] at hc2
      exact hangupExtPath_crm hc2
    · rw [if_neg h2] at hc2
      injection hc2 with e1 e2
      subst e1
      exact ⟨rfl, fun k hk => Or.inl hk⟩
  obtain ⟨hcl1, hcl2⟩ := hangupCleanup_crm_frame sc ch ext
  constructor
  · rw [hcl1, hsc.1, hsb.1]
  · intro hpurged k hk hpre
    rw [hcl2] at hk
    rcases hsc.2 k hk with hk2 | he
    · rcases hsb.2 k hk2 with hk3 | he
      · rw [hpurged k hk3] at hpre
        exact absurd hpre (by simp)
      · exact he
    · exact he

/-- Claim C7 is refuted as stated: after the final hangup of linkedid L1 in
`traceOneCall` the group is deleted, yet `crm_sent` still contains an
`L1:`-prefixed key — the purge runs before the final marker is inserted, so
the final hangup's own marker survives. -/
theorem crm_purge_counterexample :
    alookup (runTrace traceOneCall).1.linkedid2channels (s2l "L1") = none ∧
    (runTrace traceOneCall).1.linkedid_crm_sent.filter
      (fun k => startsW (s2l "L1" ++ [':']) k) =
      [crmKey (s2l "L1") (s2l "U1")] := by
  exact ⟨by decide, by decide⟩

/-- Claim C7 (amended): when a Hangup deletes its linkedid's channel group
(the group existed before the event and is gone after it), every marker of
that linkedid has been purged from `crm_sent` except possibly the one
inserted for this final hangup itself, `linkedid:uniqueid`. -/
theorem crm_purge_amended (s : St)
    (channel uniqueid0 cause0 linkedid0 : Option Str)
    (hl : orS (g linkedid0) (g (alookup s.ch2linkedid (g channel))) ≠ [])
    (hgrp : alookup s.linkedid2channels
      (orS (g linkedid0) (g (alookup s.ch2linkedid (g channel)))) ≠ none)
    (hdel : alookup
      (_ev_Hangup s channel uniqueid0 cause0 linkedid0).1.linkedid2channels
      (orS (g linkedid0) (g (alookup s.ch2linkedid (g channel)))) = none) :
    ∀ k ∈ (_ev_Hangup s channel uniqueid0 cause0 linkedid0).1.linkedid_crm_sent,
      startsW ((orS (g linkedid0) (g (alookup s.ch2linkedid (g channel)))) ++
        [':']) k = true →
      k = crmKey (orS (g linkedid0) (g (alookup s.ch2linkedid (g channel))))
        (orS (g uniqueid0) (g (alookup s.ch2uniqueid (g channel)))) := by
  unfold _ev_Hangup at hdel ⊢
  by_cases hch : (g channel).isEmpty
  · rw [if_pos hch] at hdel
    exact absurd hdel hgrp
  · rw [if_neg (by simpa using hch)] at hdel ⊢
    revert hdel
    try dsimp only
    rcases hq : hangupQueueCleanup s (g channel)
        (orS (g uniqueid0) (g (alookup s.ch2uniqueid (g channel)))) with ⟨qn, s1⟩
    have hfr := hangupQueueCleanup_frame s (g channel)
        (orS (g uniqueid0) (g (alookup s.ch2uniqueid (g channel))))
    rw [hq] at hfr
    obtain ⟨f1, f2, f3, f4, f5, f6⟩ := hfr
    try dsimp only
    rw [f1]
    split <;> rename_i hL
    · intro hdel
      exfalso
      split at hdel
      · try dsimp only at hdel
        have := alookup_groupAdd_none hdel
        rw [f4] at this
        exact hgrp this
      · try dsimp only at hdel
        rw [f4] at hdel
        exact hgrp hdel
    · rename_i isF0 s3
      try dsimp only
      intro hdel
      have hdel3 : alookup s3.linkedid2channels
          (orS (g linkedid0) (g (alookup s.ch2linkedid (g channel)))) = none := by
        rw [(hangup_tail_crm _ _ _ _ _ _ _ _ _).1] at hdel
        exact hdel
      have hpurged := hangupLinkedid_purged hl hL hdel3
      exact (hangup_tail_crm _ _ _ _ _ _ _ _ _).2 hpurged

/-- Closed discharge of `crm_purge_amended` at the `c2st` final hangup: the
surviving marker is exactly the final hangup's own key. -/
theorem crm_purge_amended_witness :
    crmKey c2L c2L = crmKey
      (orS (g (some c2L)) (g (alookup c2st.ch2linkedid (g (some c2ch)))))
      (orS (g (some c2L)) (g (alookup c2st.ch2uniqueid (g (some c2ch))))) :=
  crm_purge_amended c2st (some c2ch) (some c2L) none (some c2L)
    (by decide) (by decide) (by decide) (crmKey c2L c2L) (by decide) (by decide)


theorem gate_false_of_not_caller (ext hc qcc : Str)
    (hic : (!qcc.isEmpty && decide (hc = qcc)) = false) :
    crmQueueGatePasses ext hc true false qcc = false := by
  unfold crmQueueGatePasses
  try dsimp only
  rw [hic]
  simp

/-- Claim C3 is refuted as stated: `c3ci` has `queue_waiting` true and
`queue_answered` false, the hangup extension 200 is a 3-digit agent
extension, and the hangup channel differs from the record's
`queue_caller_channel`, yet a payload is composed — `_send_crm_data`
overrides the record's queue flags from the caller's own record
(`c3active`), which is already marked answered. -/
theorem queue_gate_counterexample :
    gb c3ci.queue_waiting = true ∧ gb c3ci.queue_answered = false ∧
    isDigits (s2l "200") = true ∧ (s2l "200").length = 3 ∧
    s2l "PJSIP/200-x" ≠ g c3ci.queue_caller_channel ∧
    _send_crm_data 100 (s2l "200") c3ci (s2l "PJSIP/200-x") (s2l "16") []
      c3active ≠ none := by
  decide

/-- Claim C3 (amended): the queue-waiting gate acts on the *effective*
queue flags — the record's flags overridden from the caller's record in
`active_calls`.  Whenever the effective flags say the queue call is still
waiting and unanswered, a payload is handed off only for the hangup of the
effective caller channel itself (which is then non-empty). -/
theorem queue_gate_amended (now : Nat) (ext : Str) (ci : CallInfo)
    (hangupChannel cause queue0 : Str) (active : List (Str × CallInfo))
    (hq : (effQueueFlags ext ci active).1 = true)
    (ha : (effQueueFlags ext ci active).2.1 = false)
    (hsome : _send_crm_data now ext ci hangupChannel cause queue0 active ≠ none) :
    (effQueueFlags ext ci active).2.2 ≠ [] ∧
    hangupChannel = (effQueueFlags ext ci active).2.2 := by
  revert hq ha hsome
  rcases hE : effQueueFlags ext ci active with ⟨qw, qa, qcc⟩
  intro hq ha hsome
  try dsimp only at hq ha hsome ⊢
  subst hq
  subst ha
  unfold _send_crm_data at hsome
  rw [hE] at hsome
  try dsimp only at hsome
  by_cases hic : (!qcc.isEmpty && decide (hangupChannel = qcc)) = true
  · simp only [Bool.and_eq_true, Bool.not_eq_true', List.isEmpty_eq_false,
      decide_eq_true_eq] at hic
    exact ⟨hic.1, hic.2⟩
  · exfalso
    rw [Bool.not_eq_true] at hic
    rw [gate_false_of_not_caller ext hangupChannel qcc hic] at hsome
    simp at hsome

/-- Closed discharge of `queue_gate_amended`: the abandonment hangup of the
waiting queue caller `c3caller` on its own channel `X`. -/
theorem queue_gate_amended_witness :
    (effQueueFlags (s2l "200") c3caller []).2.2 ≠ [] ∧
    s2l "X" = (effQueueFlags (s2l "200") c3caller []).2.2 :=
  queue_gate_amended 100 (s2l "200") c3caller (s2l "X") (s2l "16") [] []
    (by decide) (by decide) (by decide)


theorem orS_nil_left (x : Str) : orS [] x = x := by
  unfold orS
  simp

theorem orS_nil_right (x : Str) : orS x [] = x := by
  unfold orS
  split
  · rename_i h
    exact (List.isEmpty_iff.mp h).symm
  · rfl

theorem St_eta (s : St) :
    ({ extensions := s.extensions, active_calls := s.active_calls,
       ch2ext := s.ch2ext, ch_callerid := s.ch_callerid,
       destch2ext := s.destch2ext, queues := s.queues,
       queue_members := s.queue_members, queue_entries := s.queue_entries,
       dynamic_members := s.dynamic_members, ch2uniqueid := s.ch2uniqueid,
       ch2linkedid := s.ch2linkedid, linkedid2channels := s.linkedid2channels,
       linkedid_crm_sent := s.linkedid_crm_sent } : St) = s := rfl

/-- With no queue entry under the uniqueid and an untracked channel, the
queue-cleanup phase of `_ev_Hangup` is the identity. -/
theorem hangupQueueCleanup_inert {s : St} {ch u : Str}
    (hu : alookup s.queue_entries u = none)
    (hc : alookup s.ch2uniqueid ch = none) :
    hangupQueueCleanup s ch u = ([], s) := by
  unfold hangupQueueCleanup
  try dsimp only
  by_cases hue : u.isEmpty
  · simp only [hue, Bool.not_true, Bool.false_eq_true, if_false]
    try dsimp only
    rw [aerase_of_absent _ _ hc, St_eta]
  · simp only [hue, Bool.not_false, if_true]
    rw [hu]
    try dsimp only
    rw [aerase_of_absent _ _ hc, St_eta]

theorem hangupLinkedid_nil (s : St) (ch : Str) :
    hangupLinkedid s ch [] = some (false, s) := by
  unfold hangupLinkedid
  simp

theorem hangupExtPath_none {s : St} {ch ext l u : Str} {fin : Bool}
    (h : alookup s.active_calls ext = none) :
    hangupExtPath s ch ext l u fin = (s, []) := by
  unfold hangupExtPath
  rw [h]

/-- The `active_calls` fallback sweep of the hangup cleanup is the identity
when no record references the hung-up channel. -/
theorem calls_sweep_eq (l : List (Str × CallInfo)) (ch : Str)
    (h : ∀ p ∈ l, p.2.channel ≠ some ch ∧ p.2.destchannel ≠ some ch) :
    (l.filter (fun p => p.2.channel ≠ some ch)).map
      (fun p => if p.2.destchannel = some ch then
        (p.1, {p.2 with destchannel := none}) else p) = l := by
  induction l with
  | nil => rfl
  | cons p rest ih =>
    obtain ⟨h1, h2⟩ := h p (List.mem_cons_self p rest)
    rw [List.filter_cons_of_pos (by simpa using h1)]
    rw [List.map_cons, if_neg h2]
    rw [ih (fun q hq => h q (List.mem_cons_of_mem p hq))]

/-- The trailing cleanup of `_ev_Hangup` preserves the channel maps, call
records, linkedid groups and queue state when the derived extension owns no
channel and no call record references the hung-up channel. -/
theorem hangupCleanup_inert (s : St) (ch ext : Str)
    (h8 : ∀ p ∈ s.ch2ext, p.2 ≠ ext)
    (h10 : ∀ p ∈ s.active_calls, p.2.channel ≠ some ch ∧
      p.2.destchannel ≠ some ch) :
    (hangupCleanup s ch ext).ch2ext = s.ch2ext ∧
    (hangupCleanup s ch ext).active_calls = s.active_calls ∧
    (hangupCleanup s ch ext).linkedid2channels = s.linkedid2channels ∧
    (hangupCleanup s ch ext).queue_entries = s.queue_entries ∧
    (hangupCleanup s ch ext).queues = s.queues := by
  unfold hangupCleanup
  have hnil : s.ch2ext.filter (fun p => decide (p.2 = ext)) = [] :=
    List.filter_eq_nil_iff.mpr (fun p hp => by simpa using h8 p hp)
  try dsimp only
  split
  · rw [hnil]
    rw [List.map_nil, List.foldl_nil]
    try dsimp only
    refine ⟨rfl, ?_, rfl, rfl, rfl⟩
    exact calls_sweep_eq _ _ h10
  · try dsimp only
    refine ⟨rfl, ?_, rfl, rfl, rfl⟩
    exact calls_sweep_eq _ _ h10

/-- Claim C10 is refuted as stated: hanging up `PJSIP/110-b`, a channel
unknown to every tracking map, still derives extension 110 from the channel
name and evicts the unrelated channel `PJSIP/110-a` from `ch2ext`. -/
theorem hangup_unknown_channel_counterexample :
    alookup (runTrace traceBareChannel).1.ch2ext (s2l "PJSIP/110-b") = none ∧
    alookup (runTrace traceBareChannel).1.ch2linkedid (s2l "PJSIP/110-b") = none ∧
    alookup (runTrace traceBareChannel).1.ch2uniqueid (s2l "PJSIP/110-b") = none ∧
    alookup (runTrace traceBareChannel).1.destch2ext (s2l "PJSIP/110-b") = none ∧
    alookup (runTrace traceBareChannel).1.ch2ext (s2l "PJSIP/110-a") =
      some (s2l "110") ∧
    alookup (_ev_Hangup (runTrace traceBareChannel).1
      (some (s2l "PJSIP/110-b")) none none none).1.ch2ext
      (s2l "PJSIP/110-a") = none := by
  decide

/-- Claim C10 (amended): a Hangup for a channel unknown to all four channel
maps leaves the channel maps, call records, linkedid groups and queue state
unchanged and hands nothing off, provided additionally that the event
carries no linkedid, its uniqueid owns no queue entry, and the extension
derived from the channel name owns no call record and no tracked channel,
with no call record referencing the hung-up channel.  Without the extra
premises the handler mutates other channels' state (see the
counterexample). -/
theorem hangup_unknown_channel_amended (s : St)
    (channel uniqueid0 cause0 linkedid0 : Option Str)
    (h1 : alookup s.ch2ext (g channel) = none)
    (h2 : alookup s.ch2linkedid (g channel) = none)
    (h3 : alookup s.ch2uniqueid (g channel) = none)
    (h4 : alookup s.destch2ext (g channel) = none)
    (h5 : g linkedid0 = [])
    (h6 : alookup s.queue_entries (g uniqueid0) = none)
    (h7 : alookup s.active_calls ((_ext_from_channel (g channel)).getD []) = none)
    (h8 : ∀ p ∈ s.ch2ext, p.2 ≠ (_ext_from_channel (g channel)).getD [])
    (h10 : ∀ p ∈ s.active_calls, p.2.channel ≠ some (g channel) ∧
      p.2.destchannel ≠ some (g channel)) :
    (_ev_Hangup s channel uniqueid0 cause0 linkedid0).1.ch2ext = s.ch2ext ∧
    (_ev_Hangup s channel uniqueid0 cause0 linkedid0).1.active_calls =
      s.active_calls ∧
    (_ev_Hangup s channel uniqueid0 cause0 linkedid0).1.linkedid2channels =
      s.linkedid2channels ∧
    (_ev_Hangup s channel uniqueid0 cause0 linkedid0).1.queue_entries =
      s.queue_entries ∧
    (_ev_Hangup s channel uniqueid0 cause0 linkedid0).1.queues = s.queues ∧
    (_ev_Hangup s channel uniqueid0 cause0 linkedid0).2 = [] := by
  unfold _ev_Hangup
  by_cases hch : (g channel).isEmpty
  · simp [hch]
  · simp only [hch, Bool.false_eq_true, if_false]
    try dsimp only
    have hg3 : g (alookup s.ch2uniqueid (g channel)) = [] := by rw [h3]; rfl
    rw [hg3, orS_nil_right, hangupQueueCleanup_inert h6 h3]
    try dsimp only
    have hg2 : g (alookup s.ch2linkedid (g channel)) = [] := by rw [h2]; rfl
    rw [hg2, h5]
    simp only [List.isEmpty_nil, Bool.not_true, Bool.false_and,
      Bool.false_eq_true, if_false]
    rw [orS_nil_left, hangupLinkedid_nil]
    try dsimp only
    have hg1 : g (alookup s.ch2ext (g channel)) = [] := by rw [h1]; rfl
    rw [hg1, aerase_of_absent _ _ h1]
    try dsimp only
    have hg4 : g (alookup s.destch2ext (g channel)) = [] := by rw [h4]; rfl
    rw [hg4, aerase_of_absent _ _ h4]
    try dsimp only
    rw [ite_self]
    simp only [List.isEmpty_nil, Bool.not_true, Bool.false_and,
      Bool.false_eq_true, if_false]
    try dsimp only
    rw [orS_nil_left]
    rw [hangupExtPath_none h7, ite_self]
    try dsimp only
    obtain ⟨c1, c2, c3, c4, c5⟩ := hangupCleanup_inert s (g channel)
      ((_ext_from_channel (g channel)).getD []) h8 h10
    exact ⟨c1, c2, c3, c4, c5, by simp⟩

/-- Closed discharge of `hangup_unknown_channel_amended`: hanging up the
fully unknown channel `PJSIP/222-b` over the `traceBareChannel` state. -/
theorem hangup_unknown_channel_amended_witness :
    (_ev_Hangup (runTrace traceBareChannel).1 (some (s2l "PJSIP/222-b"))
      none none none).1.ch2ext = (runTrace traceBareChannel).1.ch2ext ∧
    (_ev_Hangup (runTrace traceBareChannel).1 (some (s2l "PJSIP/222-b"))
      none none none).1.active_calls =
      (runTrace traceBareChannel).1.active_calls ∧
    (_ev_Hangup (runTrace traceBareChannel).1 (some (s2l "PJSIP/222-b"))
      none none none).1.linkedid2channels =
      (runTrace traceBareChannel).1.linkedid2channels ∧
    (_ev_Hangup (runTrace traceBareChannel).1 (some (s2l "PJSIP/222-b"))
      none none none).1.queue_entries =
      (runTrace traceBareChannel).1.queue_entries ∧
    (_ev_Hangup (runTrace traceBareChannel).1 (some (s2l "PJSIP/222-b"))
      none none none).1.queues = (runTrace traceBareChannel).1.queues ∧
    (_ev_Hangup (runTrace traceBareChannel).1 (some (s2l "PJSIP/222-b"))
      none none none).2 = [] :=
  hangup_unknown_channel_amended (runTrace traceBareChannel).1
    (some (s2l "PJSIP/222-b")) none none none
    (by decide) (by decide) (by decide) (by decide) (by decide) (by decide)
    (by decide) (by decide) (by decide)


theorem alookup_none_of_not_mem_keys {α : Type} {l : List (Str × α)} {k : Str}
    (h : k ∉ l.map Prod.fst) : alookup l k = none := by
  induction l with
  | nil => rfl
  | cons p rest ih =>
    unfold alookup
    simp only [List.map_cons, List.mem_cons] at h
    push_neg at h
    rw [if_neg (fun e => h.1 e.symm)]
    exact ih h.2

theorem mem_keys_aset {α : Type} {l : List (Str × α)} {k a : Str} {v : α}
    (h : a ∈ (aset l k v).map Prod.fst) : a ∈ l.map Prod.fst ∨ a = k := by
  induction l with
  | nil =>
    simp only [aset, List.map_cons, List.map_nil, List.mem_singleton] at h
    exact Or.inr h
  | cons p rest ih =>
    unfold aset at h
    by_cases he : p.1 = k
    · obtain ⟨p1, p2⟩ := p
      simp only at he
      rw [if_pos he] at h
      simp only [List.map_cons, List.mem_cons] at h
      rcases h with h | h
      · exact Or.inr h
      · refine Or.inl ?_
        rw [List.map_cons]
        exact List.mem_cons_of_mem _ h
    · obtain ⟨p1, p2⟩ := p
      simp only at he
      rw [if_neg he] at h
      simp only [List.map_cons, List.mem_cons] at h
      rcases h with h | h
      · refine Or.inl ?_
        rw [List.map_cons, h]
        exact List.mem_cons_self _ _
      · rcases ih h with h2 | h2
        · refine Or.inl ?_
          rw [List.map_cons]
          exact List.mem_cons_of_mem _ h2
        · exact Or.inr h2

theorem nodup_keys_aset {α : Type} {l : List (Str × α)} (k : Str) (v : α)
    (h : (l.map Prod.fst).Nodup) : ((aset l k v).map Prod.fst).Nodup := by
  induction l with
  | nil => simp [aset]
  | cons p rest ih =>
    obtain ⟨p1, p2⟩ := p
    rw [List.map_cons, List.nodup_cons] at h
    unfold aset
    by_cases he : p1 = k
    · rw [if_pos he]
      rw [List.map_cons, List.nodup_cons]
      exact ⟨by rw [← he]; exact h.1, h.2⟩
    · rw [if_neg he]
      rw [List.map_cons, List.nodup_cons]
      refine ⟨fun hmem => ?_, ih h.2⟩
      rcases mem_keys_aset hmem with h2 | h2
      · exact h.1 h2
      · exact he h2

theorem aerase_sublist {α : Type} (l : List (Str × α)) (k : Str) :
    (aerase l k).Sublist l := by
  induction l with
  | nil => simp [aerase]
  | cons p rest ih =>
    obtain ⟨p1, p2⟩ := p
    unfold aerase
    by_cases he : p1 = k
    · rw [if_pos he]
      exact ih.cons _
    · rw [if_neg he]
      exact ih.cons₂ _

theorem nodup_keys_aerase {α : Type} {l : List (Str × α)} (k : Str)
    (h : (l.map Prod.fst).Nodup) : ((aerase l k).map Prod.fst).Nodup :=
  ((aerase_sublist l k).map Prod.fst).nodup h

theorem mem_of_mem_aerase {α : Type} {l : List (Str × α)} {k : Str}
    {p : Str × α} (h : p ∈ aerase l k) : p ∈ l :=
  (aerase_sublist l k).mem h

theorem mem_aset_nodup {α : Type} {l : List (Str × α)} {k : Str} {v : α}
    {p : Str × α} (nd : (l.map Prod.fst).Nodup) (h : p ∈ aset l k v) :
    p = (k, v) ∨ (p ∈ l ∧ p.1 ≠ k) := by
  induction l with
  | nil =>
    simp only [aset, List.mem_singleton] at h
    exact Or.inl h
  | cons q rest ih =>
    obtain ⟨q1, q2⟩ := q
    rw [List.map_cons, List.nodup_cons] at nd
    unfold aset at h
    by_cases he : q1 = k
    · rw [if_pos he] at h
      rcases List.mem_cons.mp h with h | h
      · exact Or.inl h
      · right
        refine ⟨List.mem_cons_of_mem _ h, fun hk => ?_⟩
        have hm : p.1 ∈ List.map Prod.fst rest := List.mem_map_of_mem Prod.fst h
        rw [hk, ← he] at hm
        exact nd.1 hm
    · rw [if_neg he] at h
      rcases List.mem_cons.mp h with h | h
      · right
        subst h
        exact ⟨List.mem_cons_self _ _, he⟩
      · rcases ih nd.2 h with h2 | h2
        · exact Or.inl h2
        · exact Or.inr ⟨List.mem_cons_of_mem _ h2.1, h2.2⟩

theorem amem_aset_self {α : Type} (l : List (Str × α)) (k : Str) (v : α) :
    amem (aset l k v) k = true := by
  unfold amem
  rw [alookup_aset_self]
  rfl

theorem amem_aset_of_mem {α : Type} {l : List (Str × α)} {a : Str}
    (k : Str) (v : α) (h : amem l a = true) : amem (aset l k v) a = true := by
  by_cases he : a = k
  · subst he
    exact amem_aset_self l a v
  · unfold amem at h ⊢
    rw [alookup_aset_ne _ _ _ _ (fun e => he e.symm)]
    exact h

theorem countQ_zero_of_unknown {queues : List (Str × QueueInfo)}
    {entries : List (Str × QEntry)} {q : Str}
    (h2 : ∀ p ∈ entries, amem queues p.2.queue = true)
    (hq : amem queues q = false) : countQ entries q = 0 := by
  unfold countQ
  have : entries.filter (fun p => decide (p.2.queue = q)) = [] := by
    rw [List.filter_eq_nil_iff]
    intro p hp
    simp only [decide_eq_true_eq]
    intro he
    have hm := h2 p hp
    rw [he, hq] at hm
    exact absurd hm (by simp)
  rw [this]
  rfl

theorem countQ_aerase_ne {entries : List (Str × QEntry)} {u : Str} {ent : QEntry}
    {q : Str} (nd : (entries.map Prod.fst).Nodup)
    (hu : alookup entries u = some ent) (hne : q ≠ ent.queue) :
    countQ (aerase entries u) q = countQ entries q := by
  induction entries with
  | nil => cases hu
  | cons p rest ih =>
    obtain ⟨p1, p2⟩ := p
    rw [List.map_cons, List.nodup_cons] at nd
    unfold alookup at hu
    unfold aerase
    by_cases he : p1 = u
    · rw [if_pos he]
      rw [if_pos he] at hu
      injection hu with hu
      subst hu
      have : aerase rest u = rest := by
        refine aerase_of_absent _ _ (alookup_none_of_not_mem_keys ?_)
        rw [← he]
        exact nd.1
      rw [this]
      unfold countQ
      rw [List.filter_cons_of_neg]
      simp only [decide_eq_true_eq]
      exact fun e => hne e.symm
    · rw [if_neg he]
      rw [if_neg he] at hu
      unfold countQ
      rw [List.filter_cons, List.filter_cons]
      split
      · simp only [List.length_cons]
        unfold countQ at ih
        rw [ih nd.2 hu]
      · unfold countQ at ih
        rw [ih nd.2 hu]

theorem countQ_aset_ne_of_none {entries : List (Str × QEntry)} {u : Str}
    {ent : QEntry} {q : Str} (hu : alookup entries u = none)
    (hne : q ≠ ent.queue) :
    countQ (aset entries u ent) q = countQ entries q := by
  induction entries with
  | nil =>
    unfold aset countQ
    rw [List.filter_cons_of_neg]
    simp only [decide_eq_true_eq]
    exact fun e => hne e.symm
  | cons p rest ih =>
    obtain ⟨p1, p2⟩ := p
    unfold alookup at hu
    unfold aset
    by_cases he : p1 = u
    · rw [if_pos he] at hu
      cases hu
    · rw [if_neg he] at hu ⊢
      unfold countQ
      rw [List.filter_cons, List.filter_cons]
      split
      · simp only [List.length_cons]
        unfold countQ at ih
        rw [ih hu]
      · unfold countQ at ih
        rw [ih hu]

theorem countQ_aset_ne_of_some {entries : List (Str × QEntry)} {u : Str}
    {old ent : QEntry} {q : Str} (nd : (entries.map Prod.fst).Nodup)
    (hu : alookup entries u = some old) (hne : q ≠ ent.queue)
    (hno : q ≠ old.queue) :
    countQ (aset entries u ent) q = countQ entries q := by
  induction entries with
  | nil => cases hu
  | cons p rest ih =>
    obtain ⟨p1, p2⟩ := p
    rw [List.map_cons, List.nodup_cons] at nd
    unfold alookup at hu
    unfold aset
    by_cases he : p1 = u
    · rw [if_pos he] at hu
      rw [if_pos he]
      injection hu with hu
      subst hu
      unfold countQ
      rw [List.filter_cons_of_neg, List.filter_cons_of_neg]
      · simp only [decide_eq_true_eq]
        exact fun e => hno e.symm
      · simp only [decide_eq_true_eq]
        exact fun e => hne e.symm
    · rw [if_neg he] at hu
      rw [if_neg he]
      unfold countQ
      rw [List.filter_cons, List.filter_cons]
      split
      · simp only [List.length_cons]
        unfold countQ at ih
        rw [ih nd.2 hu]
      · unfold countQ at ih
        rw [ih nd.2 hu]

/-- Removing a queue entry and recounting its queue preserves the
calls-waiting count invariant. -/
theorem qinv_remove {queues : List (Str × QueueInfo)}
    {entries : List (Str × QEntry)} {u : Str} {ent : QEntry}
    (i1 : ∀ p ∈ queues, p.2.calls_waiting = countQ entries p.1)
    (i2 : ∀ p ∈ entries, amem queues p.2.queue = true)
    (ndE : (entries.map Prod.fst).Nodup)
    (ndQ : (queues.map Prod.fst).Nodup)
    (hu : alookup entries u = some ent) :
    (∀ p ∈ recountQ queues (aerase entries u) ent.queue,
      p.2.calls_waiting = countQ (aerase entries u) p.1) ∧
    (∀ p ∈ aerase entries u,
      amem (recountQ queues (aerase entries u) ent.queue) p.2.queue = true) ∧
    ((aerase entries u).map Prod.fst).Nodup ∧
    ((recountQ queues (aerase entries u) ent.queue).map Prod.fst).Nodup := by
  have hkn : amem queues ent.queue = true := i2 (u, ent) (alookup_mem hu)
  unfold amem at hkn
  obtain ⟨qi, hqi⟩ := Option.isSome_iff_exists.mp hkn
  unfold recountQ
  rw [hqi]
  try dsimp only
  refine ⟨?_, ?_, nodup_keys_aerase _ ndE, nodup_keys_aset _ _ ndQ⟩
  · intro p hp
    rcases mem_aset_nodup ndQ hp with hp | ⟨hp, hne⟩
    · rw [hp]
    · rw [i1 p hp, countQ_aerase_ne ndE hu hne]
  · intro p hp
    exact amem_aset_of_mem _ _ (i2 p (mem_of_mem_aerase hp))

/-- Inserting (or same-queue re-inserting) a queue entry, seeding the queue
record, and recounting that queue preserves the count invariant. -/
theorem qinv_add {queues : List (Str × QueueInfo)}
    {entries : List (Str × QEntry)} {u : Str} {ent : QEntry} {qi : QueueInfo}
    (i1 : ∀ p ∈ queues, p.2.calls_waiting = countQ entries p.1)
    (i2 : ∀ p ∈ entries, amem queues p.2.queue = true)
    (ndE : (entries.map Prod.fst).Nodup)
    (ndQ : (queues.map Prod.fst).Nodup)
    (hnoreq : ∀ old, alookup entries u = some old → old.queue = ent.queue) :
    (∀ p ∈ recountQ (aset queues ent.queue qi) (aset entries u ent) ent.queue,
      p.2.calls_waiting = countQ (aset entries u ent) p.1) ∧
    (∀ p ∈ aset entries u ent,
      amem (recountQ (aset queues ent.queue qi) (aset entries u ent)
        ent.queue) p.2.queue = true) ∧
    ((aset entries u ent).map Prod.fst).Nodup ∧
    ((recountQ (aset queues ent.queue qi) (aset entries u ent)
      ent.queue).map Prod.fst).Nodup := by
  unfold recountQ
  rw [alookup_aset_self]
  try dsimp only
  rw [aset_aset_same]
  refine ⟨?_, ?_, nodup_keys_aset _ _ ndE, nodup_keys_aset _ _ ndQ⟩
  · intro p hp
    rcases mem_aset_nodup ndQ hp with hp | ⟨hp, hne⟩
    · rw [hp]
    · rw [i1 p hp]
      cases hE : alookup entries u with
      | none => rw [countQ_aset_ne_of_none hE hne]
      | some old =>
        rw [countQ_aset_ne_of_some ndE hE hne]
        rw [hnoreq old hE]
        exact hne
  · intro p hp
    rcases mem_aset_nodup ndE hp with hp | ⟨hp, hne⟩
    · rw [hp]
      try dsimp only
      exact amem_aset_self _ _ _
    · exact amem_aset_of_mem _ _ (i2 p hp)

/-- Updating a queue record without changing its waiting count (the
member-view idiom of the `QueueMember*` handlers) preserves the count
invariant. -/
theorem qinv_touch {queues : List (Str × QueueInfo)}
    {entries : List (Str × QEntry)} {q : Str} {qi2 : QueueInfo}
    (i1 : ∀ p ∈ queues, p.2.calls_waiting = countQ entries p.1)
    (i2 : ∀ p ∈ entries, amem queues p.2.queue = true)
    (ndQ : (queues.map Prod.fst).Nodup)
    (hcw : qi2.calls_waiting = ((alookup queues q).getD {}).calls_waiting) :
    (∀ p ∈ aset queues q qi2, p.2.calls_waiting = countQ entries p.1) ∧
    (∀ p ∈ entries, amem (aset queues q qi2) p.2.queue = true) ∧
    ((aset queues q qi2).map Prod.fst).Nodup := by
  refine ⟨?_, ?_, nodup_keys_aset _ _ ndQ⟩
  · intro p hp
    rcases mem_aset_nodup ndQ hp with hp | ⟨hp, hne⟩
    · rw [hp]
      try dsimp only
      rw [hcw]
      cases hE : alookup queues q with
      | none =>
        have : countQ entries q = 0 := by
          refine countQ_zero_of_unknown i2 ?_
          unfold amem
          rw [hE]
          rfl
        rw [this]
        rfl
      | some qi0 =>
        try dsimp only
        exact i1 (q, qi0) (alookup_mem hE)
    · exact i1 p hp
  · intro p hp
    exact amem_aset_of_mem _ _ (i2 p hp)

theorem resolveExt_queues (s : St) (ch : Str) :
    (_resolve_ext s ch).2.queues = s.queues := by
  unfold _resolve_ext
  repeat (any_goals (first
    | rfl
    | split
    | dsimp only))

theorem resolveExt_entries (s : St) (ch : Str) :
    (_resolve_ext s ch).2.queue_entries = s.queue_entries := by
  unfold _resolve_ext
  repeat (any_goals (first
    | rfl
    | split
    | dsimp only))

theorem crossRef_queues (s : St) (a b : Str) :
    (_cross_ref s a b).queues = s.queues := by
  unfold _cross_ref
  repeat (any_goals (first
    | rfl
    | split
    | dsimp only))

theorem crossRef_entries (s : St) (a b : Str) :
    (_cross_ref s a b).queue_entries = s.queue_entries := by
  unfold _cross_ref
  repeat (any_goals (first
    | rfl
    | split
    | dsimp only))

theorem ncTrack_queues (s : St) (a b c : Str) :
    (newchannelTrack s a b c).queues = s.queues := by
  unfold newchannelTrack
  repeat (any_goals (first
    | rfl
    | split
    | dsimp only))

theorem ncTrack_entries (s : St) (a b c : Str) :
    (newchannelTrack s a b c).queue_entries = s.queue_entries := by
  unfold newchannelTrack
  repeat (any_goals (first
    | rfl
    | split
    | dsimp only))

theorem ncCallerUpd_queues (s : St) (a b : Str) :
    (newchannelCallerUpd s a b).queues = s.queues := by
  unfold newchannelCallerUpd
  repeat (any_goals (first
    | rfl
    | split
    | dsimp only))

theorem ncCallerUpd_entries (s : St) (a b : Str) :
    (newchannelCallerUpd s a b).queue_entries = s.queue_entries := by
  unfold newchannelCallerUpd
  repeat (any_goals (first
    | rfl
    | split
    | dsimp only))

theorem ncOrigDest_queues (s : St) (i : CallInfo) (a b c : Str) :
    (newchannelOrigDest s i a b c).queues = s.queues := by
  unfold newchannelOrigDest
  repeat (any_goals (first
    | rfl
    | (rw [crossRef_queues]; try rfl)
    | split
    | dsimp only))

theorem ncOrigDest_entries (s : St) (i : CallInfo) (a b c : Str) :
    (newchannelOrigDest s i a b c).queue_entries = s.queue_entries := by
  unfold newchannelOrigDest
  repeat (any_goals (first
    | rfl
    | (rw [crossRef_entries]; try rfl)
    | split
    | dsimp only))

theorem bridgeMove_queues (s : St) (a b : Str) :
    (bridgeMove s a b).queues = s.queues := by
  unfold bridgeMove
  repeat (any_goals (first
    | rfl
    | split
    | dsimp only))

theorem bridgeMove_entries (s : St) (a b : Str) :
    (bridgeMove s a b).queue_entries = s.queue_entries := by
  unfold bridgeMove
  repeat (any_goals (first
    | rfl
    | split
    | dsimp only))

theorem agentConnectAgent_queues (s : St) (n : Nat) (a b c d : Str) :
    (agentConnectAgent s n a b c d).queues = s.queues := by
  unfold agentConnectAgent
  repeat (any_goals (first
    | rfl
    | split
    | dsimp only))

theorem agentConnectAgent_entries (s : St) (n : Nat) (a b c d : Str) :
    (agentConnectAgent s n a b c d).queue_entries = s.queue_entries := by
  unfold agentConnectAgent
  repeat (any_goals (first
    | rfl
    | split
    | dsimp only))

theorem agentConnectCaller_queues (s : St) (a b c d : Str) :
    (agentConnectCaller s a b c d).queues = s.queues := by
  unfold agentConnectCaller
  cases hE : alookup s.active_calls c <;>
    repeat (any_goals (first
      | rfl
      | split
      | dsimp only))

theorem agentConnectCaller_entries (s : St) (a b c d : Str) :
    (agentConnectCaller s a b c d).queue_entries = s.queue_entries := by
  unfold agentConnectCaller
  cases hE : alookup s.active_calls c <;>
    repeat (any_goals (first
      | rfl
      | split
      | dsimp only))

theorem agentConnectSweep_queues (s : St) (a b c d : Str) :
    (agentConnectSweep s a b c d).queues = s.queues := rfl

theorem agentConnectSweep_entries (s : St) (a b c d : Str) :
    (agentConnectSweep s a b c d).queue_entries = s.queue_entries := rfl

theorem extstatus_qframe (s : St) (a b : Option Str) :
    (_ev_ExtensionStatus s a b).queues = s.queues ∧
    (_ev_ExtensionStatus s a b).queue_entries = s.queue_entries := by
  unfold _ev_ExtensionStatus
  repeat (any_goals (first
    | rfl
    | exact ⟨rfl, rfl⟩
    | constructor
    | split
    | dsimp only))

theorem devstate_qframe (s : St) (a b : Option Str) :
    (_ev_DeviceStateChange s a b).queues = s.queues ∧
    (_ev_DeviceStateChange s a b).queue_entries = s.queue_entries := by
  unfold _ev_DeviceStateChange
  repeat (any_goals (first
    | rfl
    | exact ⟨rfl, rfl⟩
    | constructor
    | split
    | dsimp only))

theorem newcallerid_qframe (s : St) (a b c : Option Str) :
    (_ev_NewCallerid s a b c).queues = s.queues ∧
    (_ev_NewCallerid s a b c).queue_entries = s.queue_entries := by
  unfold _ev_NewCallerid
  try dsimp only
  rcases hR1 : _resolve_ext s (g a) with ⟨e1, s1⟩
  have q1 : s1.queues = s.queues := by
    have h := resolveExt_queues s (g a)
    rw [hR1] at h
    exact h
  have w1 : s1.queue_entries = s.queue_entries := by
    have h := resolveExt_entries s (g a)
    rw [hR1] at h
    exact h
  repeat (any_goals (first
    | rfl
    | exact ⟨rfl, rfl⟩
    | exact q1
    | exact w1
    | exact ⟨q1, w1⟩
    | constructor
    | split
    | dsimp only))

theorem dial_qframe (s : St) (a b c d e f : Option Str) :
    (_ev_Dial s a b c d e f).queues = s.queues ∧
    (_ev_Dial s a b c d e f).queue_entries = s.queue_entries := by
  unfold _ev_Dial
  try dsimp only
  rcases hR1 : _resolve_ext s (g a) with ⟨e1, s1⟩
  have q1 : s1.queues = s.queues := by
    have h := resolveExt_queues s (g a)
    rw [hR1] at h
    exact h
  have w1 : s1.queue_entries = s.queue_entries := by
    have h := resolveExt_entries s (g a)
    rw [hR1] at h
    exact h
  repeat (any_goals (first
    | rfl
    | exact ⟨rfl, rfl⟩
    | exact q1
    | exact w1
    | exact ⟨q1, w1⟩
    | constructor
    | split
    | dsimp only))

theorem varset_qframe (s : St) (a b c : Option Str) :
    (_ev_VarSet s a b c).queues = s.queues ∧
    (_ev_VarSet s a b c).queue_entries = s.queue_entries := by
  unfold _ev_VarSet
  try dsimp only
  rcases hR1 : _resolve_ext s (g a) with ⟨e1, s1⟩
  have q1 : s1.queues = s.queues := by
    have h := resolveExt_queues s (g a)
    rw [hR1] at h
    exact h
  have w1 : s1.queue_entries = s.queue_entries := by
    have h := resolveExt_entries s (g a)
    rw [hR1] at h
    exact h
  repeat (any_goals (first
    | rfl
    | exact ⟨rfl, rfl⟩
    | exact q1
    | exact w1
    | exact ⟨q1, w1⟩
    | constructor
    | split
    | dsimp only))

theorem newstate_qframe (s : St) (n : Nat) (a b c : Option Str) :
    (_ev_Newstate s n a b c).queues = s.queues ∧
    (_ev_Newstate s n a b c).queue_entries = s.queue_entries := by
  unfold _ev_Newstate
  try dsimp only
  rcases hR1 : _resolve_ext s (g a) with ⟨e1, s1⟩
  have q1 : s1.queues = s.queues := by
    have h := resolveExt_queues s (g a)
    rw [hR1] at h
    exact h
  have w1 : s1.queue_entries = s.queue_entries := by
    have h := resolveExt_entries s (g a)
    rw [hR1] at h
    exact h
  repeat (any_goals (first
    | rfl
    | exact ⟨rfl, rfl⟩
    | exact q1
    | exact w1
    | exact ⟨q1, w1⟩
    | constructor
    | split
    | dsimp only))

theorem newchannel_qframe (s : St) (n : Nat) (a b c d e f h i : Option Str) :
    (_ev_Newchannel s n a b c d e f h i).queues = s.queues ∧
    (_ev_Newchannel s n a b c d e f h i).queue_entries = s.queue_entries := by
  unfold _ev_Newchannel
  repeat (any_goals (first
    | rfl
    | exact ⟨rfl, rfl⟩
    | (simp only [ncTrack_queues, ncTrack_entries, ncCallerUpd_queues,
        ncCallerUpd_entries, ncOrigDest_queues, ncOrigDest_entries])
    | constructor
    | split
    | dsimp only))

theorem dialBeginDest_queues (s : St) (a b : Str) :
    (dialBeginDest s a b).queues = s.queues := by
  unfold dialBeginDest
  repeat (any_goals (first
    | rfl
    | split
    | dsimp only))

theorem dialBeginDest_entries (s : St) (a b : Str) :
    (dialBeginDest s a b).queue_entries = s.queue_entries := by
  unfold dialBeginDest
  repeat (any_goals (first
    | rfl
    | split
    | dsimp only))

theorem dialBeginMain_queues (s : St) (n : Nat) (a b c d e : Str) :
    (dialBeginMain s n a b c d e).queues = s.queues := by
  unfold dialBeginMain
  repeat (any_goals (first
    | rfl
    | (simp only [dialBeginDest_queues, crossRef_queues])
    | split
    | dsimp only))

theorem dialBeginMain_entries (s : St) (n : Nat) (a b c d e : Str) :
    (dialBeginMain s n a b c d e).queue_entries = s.queue_entries := by
  unfold dialBeginMain
  repeat (any_goals (first
    | rfl
    | (simp only [dialBeginDest_entries, crossRef_entries])
    | split
    | dsimp only))

theorem dialbegin_qframe (s : St) (n : Nat) (a b c d : Option Str) :
    (_ev_DialBegin s n a b c d).queues = s.queues ∧
    (_ev_DialBegin s n a b c d).queue_entries = s.queue_entries := by
  unfold _ev_DialBegin
  try dsimp only
  repeat (any_goals (first
    | rfl
    | exact ⟨rfl, rfl⟩
    | (simp only [dialBeginMain_queues, dialBeginMain_entries,
        resolveExt_queues, resolveExt_entries])
    | constructor
    | split
    | dsimp only))

theorem dialEndOwn_queues (s : St) (a b c d : Str) :
    (dialEndOwn s a b c d).queues = s.queues := by
  unfold dialEndOwn
  repeat (any_goals (first
    | rfl
    | split
    | dsimp only))

theorem dialEndOwn_entries (s : St) (a b c d : Str) :
    (dialEndOwn s a b c d).queue_entries = s.queue_entries := by
  unfold dialEndOwn
  repeat (any_goals (first
    | rfl
    | split
    | dsimp only))

theorem dialEndDest_queues (s : St) (a b c d e : Str) :
    (dialEndDest s a b c d e).queues = s.queues := by
  unfold dialEndDest
  repeat (any_goals (first
    | rfl
    | split
    | dsimp only))

theorem dialEndDest_entries (s : St) (a b c d e : Str) :
    (dialEndDest s a b c d e).queue_entries = s.queue_entries := by
  unfold dialEndDest
  repeat (any_goals (first
    | rfl
    | split
    | dsimp only))

theorem dialend_qframe (s : St) (a b c d : Option Str) :
    (_ev_DialEnd s a b c d).queues = s.queues ∧
    (_ev_DialEnd s a b c d).queue_entries = s.queue_entries := by
  unfold _ev_DialEnd
  try dsimp only
  constructor
  · simp only [dialEndDest_queues, dialEndOwn_queues, resolveExt_queues]
  · simp only [dialEndDest_entries, dialEndOwn_entries, resolveExt_entries]

theorem bridgeLink_queues (s : St) (a b c : Str) :
    (bridgeLink s a b c).queues = s.queues := by
  unfold bridgeLink
  repeat (any_goals (first
    | rfl
    | (simp only [bridgeMove_queues])
    | split
    | dsimp only))

theorem bridgeLink_entries (s : St) (a b c : Str) :
    (bridgeLink s a b c).queue_entries = s.queue_entries := by
  unfold bridgeLink
  repeat (any_goals (first
    | rfl
    | (simp only [bridgeMove_entries])
    | split
    | dsimp only))

theorem bridgeTouch_queues (s : St) (a : Str) :
    (bridgeTouch s a).queues = s.queues := by
  unfold bridgeTouch
  repeat (any_goals (first
    | rfl
    | split
    | dsimp only))

theorem bridgeTouch_entries (s : St) (a : Str) :
    (bridgeTouch s a).queue_entries = s.queue_entries := by
  unfold bridgeTouch
  repeat (any_goals (first
    | rfl
    | split
    | dsimp only))

theorem bridgeSide_queues (s : St) (a b c : Str) :
    (bridgeSide s a b c).queues = s.queues := by
  unfold bridgeSide
  repeat (any_goals (first
    | rfl
    | split
    | dsimp only))

theorem bridgeSide_entries (s : St) (a b c : Str) :
    (bridgeSide s a b c).queue_entries = s.queue_entries := by
  unfold bridgeSide
  repeat (any_goals (first
    | rfl
    | split
    | dsimp only))

theorem bridge_qframe (s : St) (a b c : Option Str) :
    (_ev_Bridge s a b c).queues = s.queues ∧
    (_ev_Bridge s a b c).queue_entries = s.queue_entries := by
  unfold _ev_Bridge
  try dsimp only
  constructor
  · simp only [bridgeSide_queues, bridgeTouch_queues, bridgeLink_queues,
      resolveExt_queues]
  · simp only [bridgeSide_entries, bridgeTouch_entries, bridgeLink_entries,
      resolveExt_entries]

theorem agentcalled_qframe (s : St) (a b c d e f h : Option Str) :
    (_ev_AgentCalled s a b c d e f h).queues = s.queues ∧
    (_ev_AgentCalled s a b c d e f h).queue_entries = s.queue_entries := by
  unfold _ev_AgentCalled
  repeat (any_goals (first
    | rfl
    | exact ⟨rfl, rfl⟩
    | constructor
    | split
    | dsimp only))

theorem agentconnect_qframe (s : St) (n : Nat) (a b c d e f h i : Option Str) :
    (_ev_AgentConnect s n a b c d e f h i).queues = s.queues ∧
    (_ev_AgentConnect s n a b c d e f h i).queue_entries = s.queue_entries := by
  unfold _ev_AgentConnect
  repeat (any_goals (first
    | rfl
    | exact ⟨rfl, rfl⟩
    | (simp only [agentConnectAgent_queues, agentConnectAgent_entries,
        agentConnectCaller_queues, agentConnectCaller_entries,
        agentConnectSweep_queues, agentConnectSweep_entries])
    | constructor
    | split
    | dsimp only))

theorem joinTrackChan_queues (s : St) (a b : Str) :
    (joinTrackChan s a b).queues = s.queues := by
  unfold joinTrackChan
  split
  · rfl
  · rfl

theorem joinTrackChan_entries (s : St) (a b : Str) :
    (joinTrackChan s a b).queue_entries = s.queue_entries := by
  unfold joinTrackChan
  split
  · rfl
  · rfl

theorem joinCallerInfo_queues (s : St) (a b : Str) :
    (joinCallerInfo s a b).queues = s.queues := by
  unfold joinCallerInfo
  repeat (any_goals (first
    | rfl
    | split
    | dsimp only))

theorem joinCallerInfo_entries (s : St) (a b : Str) :
    (joinCallerInfo s a b).queue_entries = s.queue_entries := by
  unfold joinCallerInfo
  repeat (any_goals (first
    | rfl
    | split
    | dsimp only))

theorem joinCalleridInfo_queues (s : St) (n : Nat) (us : Bool) (a b c d : Str) :
    (joinCalleridInfo s n us a b c d).queues = s.queues := by
  unfold joinCalleridInfo
  repeat (any_goals (first
    | rfl
    | split
    | dsimp only))

theorem joinCalleridInfo_entries (s : St) (n : Nat) (us : Bool) (a b c d : Str) :
    (joinCalleridInfo s n us a b c d).queue_entries = s.queue_entries := by
  unfold joinCalleridInfo
  repeat (any_goals (first
    | rfl
    | split
    | dsimp only))

/-- The queue-join body preserves the count invariant as long as an
existing entry under the event's uniqueid is not moved to a different
queue. -/
theorem queueJoinCore_qinv (s : St) (now : Nat) (us : Bool)
    (q u cn cid po chn li : Option Str)
    (inv : qStateInv s)
    (hnr : ∀ ent, alookup s.queue_entries (g u) = some ent → ent.queue = g q) :
    qStateInv (queueJoinCore s now us q u cn cid po chn li) := by
  obtain ⟨⟨i1, i2⟩, ndE, ndQ⟩ := inv
  unfold queueJoinCore
  try dsimp only
  by_cases hg : (!List.isEmpty (g q) && !List.isEmpty (g u)) = true
  · rw [if_pos hg]
    unfold qStateInv queueCountInv
    try dsimp only
    simp only [joinCalleridInfo_queues, joinCalleridInfo_entries,
      joinCallerInfo_queues, joinCallerInfo_entries,
      joinTrackChan_queues, joinTrackChan_entries]
    try dsimp only
    have A := @qinv_add s.queues s.queue_entries (g u)
      ⟨g q,
        (match cn with
          | some v => v
          | none => cid.getD (s2l "Unknown")),
        (if isDigits (g po) = true then parseNat (g po) else 0), now⟩
      ((alookup s.queues (g q)).getD {})
      i1 i2 ndE ndQ (fun old h => hnr old h)
    exact ⟨⟨A.1, A.2.1⟩, A.2.2.1, A.2.2.2⟩
  · rw [if_neg hg]
    exact ⟨⟨i1, i2⟩, ndE, ndQ⟩

/-- The count invariant only reads the `queues` and `queue_entries` fields,
so it transports along any step that preserves them. -/
theorem qStateInv_of_eq {s t : St} (hq : t.queues = s.queues)
    (he : t.queue_entries = s.queue_entries) (inv : qStateInv s) :
    qStateInv t := by
  unfold qStateInv queueCountInv at inv ⊢
  rw [hq, he]
  exact inv

theorem queueCallerLeave_qinv (s : St) (u : Option Str) (inv : qStateInv s) :
    qStateInv (_ev_QueueCallerLeave s u) := by
  obtain ⟨⟨i1, i2⟩, ndE, ndQ⟩ := inv
  unfold _ev_QueueCallerLeave
  try dsimp only
  cases hE : alookup s.queue_entries (g u) with
  | none => exact ⟨⟨i1, i2⟩, ndE, ndQ⟩
  | some ent =>
    unfold qStateInv queueCountInv
    try dsimp only
    have A := qinv_remove i1 i2 ndE ndQ hE
    exact ⟨⟨A.1, A.2.1⟩, A.2.2.1, A.2.2.2⟩

theorem hangupQueueCleanup_qinv (s : St) (ch u : Str) (inv : qStateInv s) :
    qStateInv (hangupQueueCleanup s ch u).2 := by
  obtain ⟨⟨i1, i2⟩, ndE, ndQ⟩ := inv
  unfold hangupQueueCleanup
  try dsimp only
  by_cases hue : (!List.isEmpty u) = true
  · rw [if_pos hue]
    cases hE : alookup s.queue_entries u with
    | none =>
      try dsimp only
      exact ⟨⟨i1, i2⟩, ndE, ndQ⟩
    | some ent =>
      unfold qStateInv queueCountInv
      try dsimp only
      have A := qinv_remove i1 i2 ndE ndQ hE
      exact ⟨⟨A.1, A.2.1⟩, A.2.2.1, A.2.2.2⟩
  · rw [if_neg hue]
    try dsimp only
    exact ⟨⟨i1, i2⟩, ndE, ndQ⟩

theorem hangupDropChan_qinv (s : St) (c : Str) (inv : qStateInv s) :
    qStateInv (hangupDropChan s c) := by
  obtain ⟨⟨i1, i2⟩, ndE, ndQ⟩ := inv
  unfold hangupDropChan
  try dsimp only
  cases hE : alookup s.ch2uniqueid c with
  | none => exact ⟨⟨i1, i2⟩, ndE, ndQ⟩
  | some u =>
    try dsimp only
    split
    · exact ⟨⟨i1, i2⟩, ndE, ndQ⟩
    · cases hE2 : alookup s.queue_entries u with
      | none => exact ⟨⟨i1, i2⟩, ndE, ndQ⟩
      | some ent =>
        unfold qStateInv queueCountInv
        try dsimp only
        have A := qinv_remove i1 i2 ndE ndQ hE2
        exact ⟨⟨A.1, A.2.1⟩, A.2.2.1, A.2.2.2⟩

theorem foldl_dropChan_qinv (l : List Str) (s : St) (inv : qStateInv s) :
    qStateInv (l.foldl hangupDropChan s) := by
  induction l generalizing s with
  | nil => exact inv
  | cons c rest ih =>
    rw [List.foldl_cons]
    exact ih _ (hangupDropChan_qinv s c inv)

theorem hangupCleanup_qinv (s : St) (ch ext : Str) (inv : qStateInv s) :
    qStateInv (hangupCleanup s ch ext) := by
  unfold hangupCleanup
  try dsimp only
  split
  · have B := foldl_dropChan_qinv
      ((s.ch2ext.filter (fun p => decide (p.2 = ext))).map (fun p => p.1)) s inv
    exact qStateInv_of_eq rfl rfl B
  · exact qStateInv_of_eq rfl rfl inv

theorem hangupLinkedid_qframe {s : St} {ch l : Str} {isF : Bool} {t : St}
    (hP : hangupLinkedid s ch l = some (isF, t)) :
    t.queues = s.queues ∧ t.queue_entries = s.queue_entries := by
  unfold hangupLinkedid at hP
  split at hP
  · injection hP with hP
    injection hP with h1 h2
    subst h2
    exact ⟨rfl, rfl⟩
  · split at hP
    · cases hP
    · try dsimp only at hP
      injection hP with hP
      injection hP with h1 h2
      subst h2
      split
      · exact ⟨rfl, rfl⟩
      · exact ⟨rfl, rfl⟩

theorem hangupCallerPath_qframe {s : St} {ch ce ext l u : Str} {fin : Bool}
    {t : St} {hs : List Handoff}
    (hP : hangupCallerPath s ch ce ext l u fin = (t, hs)) :
    t.queues = s.queues ∧ t.queue_entries = s.queue_entries := by
  unfold hangupCallerPath at hP
  split at hP
  · injection hP with h1 h2
    subst h1
    exact ⟨rfl, rfl⟩
  · split at hP
    · cases fin
      · try dsimp only at hP
        injection hP with h1 h2
        subst h1
        exact ⟨rfl, rfl⟩
      · simp only [eq_self_iff_true, if_true] at hP
        injection hP with h1 h2
        subst h1
        exact ⟨rfl, rfl⟩
    · injection hP with h1 h2
      subst h1
      exact ⟨rfl, rfl⟩

theorem hangupExtPath_qframe {s : St} {ch ext l u : Str} {fin : Bool}
    {t : St} {hs : List Handoff}
    (hP : hangupExtPath s ch ext l u fin = (t, hs)) :
    t.queues = s.queues ∧ t.queue_entries = s.queue_entries := by
  unfold hangupExtPath at hP
  split at hP
  · injection hP with h1 h2
    subst h1
    exact ⟨rfl, rfl⟩
  · split at hP
    · cases fin
      · try dsimp only at hP
        injection hP with h1 h2
        subst h1
        exact ⟨rfl, rfl⟩
      · simp only [eq_self_iff_true, if_true] at hP
        injection hP with h1 h2
        subst h1
        exact ⟨rfl, rfl⟩
    · split at hP
      · injection hP with h1 h2
        subst h1
        exact ⟨rfl, rfl⟩
      · cases fin
        · try dsimp only at hP
          injection hP with h1 h2
          subst h1
          exact ⟨rfl, rfl⟩
        · simp only [eq_self_iff_true, if_true] at hP
          injection hP with h1 h2
          subst h1
          exact ⟨rfl, rfl⟩

/-- The emission/cleanup tail of `_ev_Hangup` preserves the count
invariant (none of it touches `queues` except the entry-removal recount
idiom inside the cleanup loops). -/
theorem hangup_tail_qinv (sa : St) (ch ce ext l u : Str) (fin c1 c2 : Bool)
    (inv : qStateInv sa) :
    qStateInv (hangupCleanup
        (if c2 = true then
          hangupExtPath
            (if c1 = true then hangupCallerPath sa ch ce ext l u fin
              else (sa, [])).1 ch ext l u fin
        else ((if c1 = true then hangupCallerPath sa ch ce ext l u fin
              else (sa, [])).1, [])).1 ch ext) := by
  rcases hc1 : (if c1 = true then hangupCallerPath sa ch ce ext l u fin
      else (sa, [])) with ⟨sb, hs1⟩
  try dsimp only
  rcases hc2 : (if c2 = true then hangupExtPath sb ch ext l u fin
      else (sb, [])) with ⟨sc, hs2⟩
  try dsimp only
  have invb : qStateInv sb := by
    by_cases h1 : c1 = true
    · rw [if_pos h1] at hc1
      obtain ⟨f1, f2⟩ := hangupCallerPath_qframe hc1
      exact qStateInv_of_eq f1 f2 inv
    · rw [if_neg h1] at hc1
      injection hc1 with e1 e2
      subst e1
      exact inv
  have invc : qStateInv sc := by
    by_cases h2 : c2 = true
    · rw [if_pos h2] at hc2
      obtain ⟨f1, f2⟩ := hangupExtPath_qframe hc2
      exact qStateInv_of_eq f1 f2 invb
    · rw [if_neg h2] at hc2
      injection hc2 with e1 e2
      subst e1
      exact invb
  exact hangupCleanup_qinv _ _ _ invc

theorem hangup_qinv (s : St) (a b c d : Option Str) (inv : qStateInv s) :
    qStateInv (_ev_Hangup s a b c d).1 := by
  unfold _ev_Hangup
  by_cases hch : (g a).isEmpty
  · simp only [hch, if_true]
    exact inv
  · simp only [hch, Bool.false_eq_true, if_false]
    try dsimp only
    rcases hq : hangupQueueCleanup s (g a)
        (orS (g b) (g (alookup s.ch2uniqueid (g a)))) with ⟨qn, s1⟩
    have inv1 : qStateInv s1 := by
      have h := hangupQueueCleanup_qinv s (g a)
        (orS (g b) (g (alookup s.ch2uniqueid (g a)))) inv
      rw [hq] at h
      exact h
    try dsimp only
    split <;> rename_i hL
    · split
      · exact qStateInv_of_eq rfl rfl inv1
      · exact inv1
    · rename_i isF0 s3
      try dsimp only
      have inv3 : qStateInv s3 := by
        refine qStateInv_of_eq ?_ ?_ inv1
        · rw [(hangupLinkedid_qframe hL).1]
          split
          · rfl
          · rfl
        · rw [(hangupLinkedid_qframe hL).2]
          split
          · rfl
          · rfl
      exact hangup_tail_qinv _ _ _ _ _ _ _ _ _ (qStateInv_of_eq rfl rfl inv3)

theorem queueMemberStatus_qinv (s : St) (n : Nat) (a b c d e : Option Str)
    (inv : qStateInv s) : qStateInv (_ev_QueueMemberStatus s n a b c d e) := by
  obtain ⟨⟨i1, i2⟩, ndE, ndQ⟩ := inv
  unfold _ev_QueueMemberStatus
  try dsimp only
  split
  · unfold qStateInv queueCountInv
    try dsimp only
    exact ⟨⟨(qinv_touch i1 i2 ndQ (by rfl)).1, (qinv_touch i1 i2 ndQ (by rfl)).2.1⟩, ndE,
      (qinv_touch i1 i2 ndQ (by rfl)).2.2⟩
  · exact ⟨⟨i1, i2⟩, ndE, ndQ⟩

theorem queueMemberAdded_qinv (s : St) (n : Nat) (a b c d : Option Str)
    (inv : qStateInv s) : qStateInv (_ev_QueueMemberAdded s n a b c d) := by
  obtain ⟨⟨i1, i2⟩, ndE, ndQ⟩ := inv
  unfold _ev_QueueMemberAdded
  try dsimp only
  split
  · unfold qStateInv queueCountInv
    try dsimp only
    exact ⟨⟨(qinv_touch i1 i2 ndQ (by rfl)).1, (qinv_touch i1 i2 ndQ (by rfl)).2.1⟩, ndE,
      (qinv_touch i1 i2 ndQ (by rfl)).2.2⟩
  · exact ⟨⟨i1, i2⟩, ndE, ndQ⟩

theorem queueMemberRemoved_qinv (s : St) (a b : Option Str)
    (inv : qStateInv s) : qStateInv (_ev_QueueMemberRemoved s a b) := by
  obtain ⟨⟨i1, i2⟩, ndE, ndQ⟩ := inv
  unfold _ev_QueueMemberRemoved
  try dsimp only
  split
  · cases hE : alookup s.queues (g a) with
    | none => exact ⟨⟨i1, i2⟩, ndE, ndQ⟩
    | some qi =>
      try dsimp only
      split
      · unfold qStateInv queueCountInv
        try dsimp only
        exact ⟨⟨(qinv_touch i1 i2 ndQ (by rw [hE]; try rfl)).1,
          (qinv_touch i1 i2 ndQ (by rw [hE]; try rfl)).2.1⟩, ndE,
          (qinv_touch i1 i2 ndQ (by rw [hE]; try rfl)).2.2⟩
      · exact ⟨⟨i1, i2⟩, ndE, ndQ⟩
  · exact ⟨⟨i1, i2⟩, ndE, ndQ⟩

theorem queueMemberPaused_qinv (s : St) (a b c d : Option Str)
    (inv : qStateInv s) : qStateInv (_ev_QueueMemberPaused s a b c d) := by
  obtain ⟨⟨i1, i2⟩, ndE, ndQ⟩ := inv
  unfold _ev_QueueMemberPaused
  try dsimp only
  split
  · cases hM : alookup s.queue_members ((g a) ++ ':' :: (g b)) with
    | none =>
      try dsimp only
      cases hE : alookup s.queues (g a) with
      | none => exact ⟨⟨i1, i2⟩, ndE, ndQ⟩
      | some qi =>
        try dsimp only
        cases hV : alookup qi.members (g b) with
        | none => exact ⟨⟨i1, i2⟩, ndE, ndQ⟩
        | some mv =>
          unfold qStateInv queueCountInv
          try dsimp only
          exact ⟨⟨(qinv_touch i1 i2 ndQ (by rw [hE]; try rfl)).1,
            (qinv_touch i1 i2 ndQ (by rw [hE]; try rfl)).2.1⟩, ndE,
            (qinv_touch i1 i2 ndQ (by rw [hE]; try rfl)).2.2⟩
    | some qm =>
      try dsimp only
      cases hE : alookup s.queues (g a) with
      | none => exact ⟨⟨i1, i2⟩, ndE, ndQ⟩
      | some qi =>
        try dsimp only
        cases hV : alookup qi.members (g b) with
        | none => exact ⟨⟨i1, i2⟩, ndE, ndQ⟩
        | some mv =>
          unfold qStateInv queueCountInv
          try dsimp only
          exact ⟨⟨(qinv_touch i1 i2 ndQ (by rw [hE]; try rfl)).1,
            (qinv_touch i1 i2 ndQ (by rw [hE]; try rfl)).2.1⟩, ndE,
            (qinv_touch i1 i2 ndQ (by rw [hE]; try rfl)).2.2⟩
  · exact ⟨⟨i1, i2⟩, ndE, ndQ⟩

/-- Claim C8 is refuted as stated: after the two `QueueCallerJoin` events of
`traceQueueMove` (the second re-keys uniqueid `U` from queue `q1` to `q2`),
queue `q1` still reports one waiting call while no entry references it; the
first event alone leaves the invariant intact.  The sync path fails too: a
`QueueSummary` row reporting waiting callers with no matching `QueueStatus`
entries seeds a count with no entries behind it. -/
theorem queue_count_counterexample :
    qStateInv (runAux 1 initSt [] (List.take 1 traceQueueMove)).1 ∧
    ¬ queueCountInv (runTrace traceQueueMove).1 ∧
    (alookup (runTrace traceQueueMove).1.queues (s2l "q1")).map
      (fun qi => qi.calls_waiting) = some 1 ∧
    countQ (runTrace traceQueueMove).1.queue_entries (s2l "q1") = 0 ∧
    ¬ queueCountInv (sync_queue_status initSt 1 [⟨s2l "q1", 5, 0, 0, [], []⟩] []) := by
  unfold qStateInv queueCountInv
  exact ⟨by decide, by decide, by decide, by decide, by decide⟩

/-- Claim C8 (amended): processing any single watched event preserves the
calls-waiting count invariant — every queue's `calls_waiting` equals the
number of `queue_entries` whose queue field names it, entries reference
known queues, and the two maps keep duplicate-free keys — provided a
`QueueEntry`/`QueueCallerJoin` event does not move an existing uniqueid to
a different queue.  Without that proviso, and after a sync whose summary
disagrees with its entry items, the invariant can break. -/
theorem queue_count_invariant_amended (now : Nat) (s : St) (e : Ev)
    (inv : qStateInv s) (hnr : noRequeue s e) :
    qStateInv (applyEv now s e).1 := by
  cases e with
  | ExtensionStatus a b =>
    exact qStateInv_of_eq (extstatus_qframe s a b).1 (extstatus_qframe s a b).2 inv
  | PeerStatus => exact inv
  | DeviceStateChange a b =>
    exact qStateInv_of_eq (devstate_qframe s a b).1 (devstate_qframe s a b).2 inv
  | Newchannel a b c d e f h i =>
    exact qStateInv_of_eq (newchannel_qframe s now a b c d e f h i).1
      (newchannel_qframe s now a b c d e f h i).2 inv
  | Hangup a b c d => exact hangup_qinv s a b c d inv
  | Dial a b c d e f =>
    exact qStateInv_of_eq (dial_qframe s a b c d e f).1
      (dial_qframe s a b c d e f).2 inv
  | DialBegin a b c d =>
    exact qStateInv_of_eq (dialbegin_qframe s now a b c d).1
      (dialbegin_qframe s now a b c d).2 inv
  | DialEnd a b c d =>
    exact qStateInv_of_eq (dialend_qframe s a b c d).1
      (dialend_qframe s a b c d).2 inv
  | Bridge a b c =>
    exact qStateInv_of_eq (bridge_qframe s a b c).1 (bridge_qframe s a b c).2 inv
  | NewCallerid a b c =>
    exact qStateInv_of_eq (newcallerid_qframe s a b c).1
      (newcallerid_qframe s a b c).2 inv
  | Newstate a b c =>
    exact qStateInv_of_eq (newstate_qframe s now a b c).1
      (newstate_qframe s now a b c).2 inv
  | VarSet a b c =>
    exact qStateInv_of_eq (varset_qframe s a b c).1 (varset_qframe s a b c).2 inv
  | QueueMemberStatus a b c d e => exact queueMemberStatus_qinv s now a b c d e inv
  | QueueMemberAdded a b c d => exact queueMemberAdded_qinv s now a b c d inv
  | QueueMemberRemoved a b => exact queueMemberRemoved_qinv s a b inv
  | QueueMemberPause => exact inv
  | QueueMemberPaused a b c d => exact queueMemberPaused_qinv s a b c d inv
  | QueueMemberUnpause a b c d => exact queueMemberPaused_qinv s a b c d inv
  | QueueMemberRingInUse => exact inv
  | QueueSummary => exact inv
  | QueueEntry a b c d e f h => exact queueJoinCore_qinv s now false a b c d e f h inv hnr
  | QueueCallerJoin a b c d e f h => exact queueJoinCore_qinv s now true a b c d e f h inv hnr
  | QueueCallerLeave a b => exact queueCallerLeave_qinv s b inv
  | AgentCalled a b c d e f h =>
    exact qStateInv_of_eq (agentcalled_qframe s a b c d e f h).1
      (agentcalled_qframe s a b c d e f h).2 inv
  | AgentConnect a b c d e f h i =>
    exact qStateInv_of_eq (agentconnect_qframe s now a b c d e f h i).1
      (agentconnect_qframe s now a b c d e f h i).2 inv
  | AgentComplete => exact inv

/-- Closed discharge of `queue_count_invariant_amended`: the first
`QueueCallerJoin` of `traceQueueMove` applied to the fresh monitor. -/
theorem queue_count_invariant_amended_witness :
    qStateInv (applyEv 1 initSt (Ev.QueueCallerJoin (some (s2l "q1"))
      (some (s2l "U")) (some (s2l "12345678901")) none (some (s2l "1"))
      (some (s2l "PJSIP/sbc-a")) none)).1 :=
  queue_count_invariant_amended 1 initSt
    (Ev.QueueCallerJoin (some (s2l "q1")) (some (s2l "U"))
      (some (s2l "12345678901")) none (some (s2l "1"))
      (some (s2l "PJSIP/sbc-a")) none)
    (by unfold qStateInv queueCountInv; decide)
    (fun ent h => Option.noConfusion h)

end OpDesk
